import Mathlib

/-!
Verification development for the order-reconciliation and profit engine of the
business-dashboard repository.  The Python sources under `src/pages/2_Order_Matcher.py`,
`src/utils/international_matcher.py`, `src/utils/exchange_rate_handler.py` and
`src/utils/data_processor.py` are shallowly embedded as executable Lean functions,
and the specification's claims about them are settled as theorems below.

Modelling conventions:
* Python `float` arithmetic is modelled with exact rationals (`ℚ`); Python's
  `round` (banker's rounding, half to even) is `bankersRound`.
* Python dictionaries are association lists of `PyVal` values; `pandas`
  truthiness errors on list-valued cells are modelled with `Except`.
* Recursions that are not structural in Python (regex scans) use an explicit
  fuel argument bounded by the input length, so that every definition is a
  plain structural recursion the kernel can evaluate.
-/

/-- Banker's rounding (Python `round` to 0 digits): nearest integer, ties to even. -/
def bankersRound (q : ℚ) : ℤ :=
  let f := ⌊q⌋
  let r := q - f
  if r < 1/2 then f else if 1/2 < r then f + 1 else if Even f then f else f + 1

/-- Python `round(x, 2)` on exact rationals. -/
def pyRound2 (q : ℚ) : ℚ := (bankersRound (q * 100) : ℚ) / 100

/-- Python `round(x, 1)` on exact rationals. -/
def pyRound1 (q : ℚ) : ℚ := (bankersRound (q * 10) : ℚ) / 10

/-- Does the list start with the given pattern (char-for-char)? -/
def listStartsWith : List Char → List Char → Bool
  | [], _ => true
  | _ :: _, [] => false
  | p :: ps, c :: cs => p = c && listStartsWith ps cs

/-- Python `needle in hay` on character lists (substring containment). -/
def listContainsSub (needle : List Char) : List Char → Bool
  | [] => needle.isEmpty
  | c :: cs => listStartsWith needle (c :: cs) || listContainsSub needle cs

/-- Python `needle in hay` on strings. -/
def strContains (hay needle : String) : Bool :=
  listContainsSub needle.toList hay.toList

/-- Python `str.lower()` (ASCII case folding, which covers the repository's data). -/
def pyLower (s : String) : String :=
  String.mk (s.toList.map Char.toLower)

/-- Python `str.strip()` (leading and trailing whitespace removed). -/
def pyStrip (s : String) : String := s.trim

/-- Split a character list into maximal runs of characters satisfying `p`,
discarding separators.  Used for Python `str.split()` and `re.split` with the
empty pieces filtered out, exactly as the source filters them. -/
def runsBy (p : Char → Bool) : List Char → List (List Char)
  | [] => []
  | c :: cs =>
    if p c then
      match runsBy p cs with
      | [] => [[c]]
      | r :: rs => if cs.head?.elim false p then (c :: r) :: rs else [c] :: r :: rs
    else runsBy p cs

/-- Python `str.split()` with no argument: split on whitespace runs, no empties. -/
def pySplitWs (s : String) : List String :=
  (runsBy (fun c => !c.isWhitespace) s.toList).map String.mk

/-- Word characters of the regex `\w` (ASCII alphanumerics and underscore). -/
def isWordChar (c : Char) : Bool := c.isAlphanum || c = '_'

/-- The non-empty pieces of `re.split(r'[^\w]+', s)`: maximal runs of word
characters.  The source iterates the split result and skips empty strings, so
this is exactly the list it effectively processes. -/
def wordRuns (s : String) : List String :=
  (runsBy isWordChar s.toList).map String.mk

/-- Replace every occurrence of `pat` in `s` by nothing (Python `str.replace(pat, '')`),
character-list worker with fuel. -/
def removeAllAux (pat : List Char) : Nat → List Char → List Char
  | 0, l => l
  | _ + 1, [] => []
  | fuel + 1, c :: cs =>
    if pat ≠ [] && listStartsWith pat (c :: cs) then
      removeAllAux pat fuel ((c :: cs).drop pat.length)
    else
      c :: removeAllAux pat fuel cs

/-- Python `s.replace(pat, '')`. -/
def removeAll (s pat : String) : String :=
  String.mk (removeAllAux pat.toList (s.length + 1) s.toList)

/-- Value of a digit character. -/
def digitVal (c : Char) : Nat := c.toNat - '0'.toNat

/-- Natural number denoted by a list of digit characters (empty list denotes 0). -/
def natOfDigits (ds : List Char) : Nat :=
  ds.foldl (fun acc c => acc * 10 + digitVal c) 0

/-- Decimal digits of a natural number, with fuel (kernel-friendly `Nat.repr`). -/
def natDigitsAux : Nat → Nat → List Char
  | 0, _ => []
  | _ + 1, n =>
    if n < 10 then [Char.ofNat (n + '0'.toNat)]
    else natDigitsAux n (n / 10) ++ [Char.ofNat (n % 10 + '0'.toNat)]

/-- Render a natural number in decimal. -/
def natToStr (n : Nat) : String := String.mk (natDigitsAux (n + 1) n)

/-- Render an integer in decimal. -/
def intToStr (i : ℤ) : String :=
  if i < 0 then "-" ++ natToStr i.natAbs else natToStr i.natAbs

/-- Render a nonnegative rational with exactly `k` digits after the decimal point
(assumes `q * 10^k` is an integer). -/
def ratFixedStr (q : ℚ) (k : Nat) : String :=
  let n := (q * (10 : ℚ) ^ k).num.natAbs
  natToStr (n / 10 ^ k) ++ "." ++
    (String.mk (List.replicate (k - (natDigitsAux (n % 10 ^ k + 1) (n % 10 ^ k)).length) '0') ++
      natToStr (n % 10 ^ k))

/-- Python `str(x)` for a float holding the exact decimal `q`: shortest fixed
form, at least one digit after the point (`str(35.0) = "35.0"`,
`str(34.99) = "34.99"`).  Defined for the 2-decimal rationals produced by
`round(x, 2)`; other denominators fall back to 6 digits. -/
def pyFloatStrCore (q : ℚ) : String :=
  if q.den = 1 then natToStr q.num.natAbs ++ ".0"
  else if (q * 10).den = 1 then ratFixedStr q 1
  else if (q * 100).den = 1 then ratFixedStr q 2
  else ratFixedStr q 6

/-- Python `str(x)` for a float holding the exact decimal `q` (sign included). -/
def pyFloatStr (q : ℚ) : String :=
  if q < 0 then "-" ++ pyFloatStrCore (-q) else pyFloatStrCore q

/-- Python `float(s)` on a string: optional sign, digits with an optional single
decimal point (scientific notation is not used by the repository's data and is
not modelled).  Returns `none` where Python raises `ValueError`. -/
def pyFloatParse (s : String) : Option ℚ :=
  let t := s.trim.toList
  let (sign, t) : ℚ × List Char :=
    match t with
    | '-' :: r => (-1, r)
    | '+' :: r => (1, r)
    | _ => (1, t)
  let d1 := t.takeWhile Char.isDigit
  let rest := t.drop d1.length
  if !(d1.all Char.isDigit) then none else
  match rest with
  | [] => if d1.isEmpty then none else some (sign * natOfDigits d1)
  | '.' :: r2 =>
    let d2 := r2.takeWhile Char.isDigit
    let rest2 := r2.drop d2.length
    if rest2.isEmpty ∧ ¬(d1.isEmpty ∧ d2.isEmpty) then
      some (sign * ((natOfDigits d1 : ℚ) + (natOfDigits d2 : ℚ) / (10 : ℚ) ^ d2.length))
    else none
  | _ => none

/-! ## Python values and dictionaries

The profit calculator receives raw row dictionaries whose cells may be strings,
numbers, `None`, lists or nested dictionaries.  `PyVal` models that dynamic
value space; `PyDict` models a dictionary as an association list (keys unique,
first binding wins, as in Python). -/

inductive PyVal where
  | str : String → PyVal
  | num : ℚ → PyVal
  | none_ : PyVal
  | list : List PyVal → PyVal
  | dict : List (String × PyVal) → PyVal

/-- A Python dictionary of `PyVal` cells. -/
def PyDict := List (String × PyVal)

/-- Dictionary lookup: `d[k]` / `d.get(k)` (first binding). -/
def dictGet (d : PyDict) (k : String) : Option PyVal :=
  (d.find? (fun kv => kv.1 = k)).map (·.2)

/-- Python `k in d`. -/
def dictHas (d : PyDict) (k : String) : Bool :=
  (dictGet d k).isSome

/-- Python `d.get(k, default)`. -/
def dictGetD (d : PyDict) (k : String) (v : PyVal) : PyVal :=
  (dictGet d k).getD v

/-- Python truthiness of a value (`bool(v)`): empty strings, zero, `None`,
empty lists and empty dictionaries are falsy. -/
def pyTruthy : PyVal → Bool
  | .str s => s ≠ ""
  | .num q => q ≠ 0
  | .none_ => false
  | .list l => !l.isEmpty
  | .dict d => !d.isEmpty

mutual

/-- Python `repr` of a value (as used when a container is stringified). -/
def pyRepr : PyVal → String
  | .str s => "'" ++ s ++ "'"
  | .num q => pyFloatStr q
  | .none_ => "None"
  | .list l => "[" ++ ", ".intercalate (pyReprList l) ++ "]"
  | .dict d => "\x7b" ++ ", ".intercalate (pyReprDict d) ++ "\x7d"

def pyReprList : List PyVal → List String
  | [] => []
  | v :: vs => pyRepr v :: pyReprList vs

def pyReprDict : List (String × PyVal) → List String
  | [] => []
  | (k, v) :: kvs => ("'" ++ k ++ "': " ++ pyRepr v) :: pyReprDict kvs

end

/-- Python `str(v)`.  Strings render verbatim, `None` as `"None"`, numbers in
float form, containers through `repr` of their elements. -/
def pyStr : PyVal → String
  | .str s => s
  | v => pyRepr v

/-- Python `pd.notna(v)` used directly as a branch condition.  For scalar cells
it is `v is not None`; for a list cell `pandas` returns an elementwise array
whose use in an `if` raises `ValueError`, which the embedding surfaces as an
`Except.error` (caught by the calculator's outer `try`). -/
def pdNotnaTruthy : PyVal → Except String Bool
  | .none_ => .ok false
  | .list _ => .error "The truth value of an array with more than one element is ambiguous"
  | _ => .ok true

/-- Python `pd.isna(v)` used as a branch condition (same array caveat). -/
def pdIsnaTruthy : PyVal → Except String Bool
  | .none_ => .ok true
  | .list _ => .error "The truth value of an array with more than one element is ambiguous"
  | _ => .ok false

/-- Python `float(v)` where failures (`ValueError`/`TypeError`) are caught by the
caller: numbers pass through, numeric strings parse, everything else is `none`. -/
def pyFloatOf : PyVal → Option ℚ
  | .num q => some q
  | .str s => pyFloatParse s
  | _ => none

/-- Replace every occurrence of `pat` by `rep` (character-list worker, fuel). -/
def replaceAllAux (pat rep : List Char) : Nat → List Char → List Char
  | 0, l => l
  | _ + 1, [] => []
  | fuel + 1, c :: cs =>
    if pat ≠ [] && listStartsWith pat (c :: cs) then
      rep ++ replaceAllAux pat rep fuel ((c :: cs).drop pat.length)
    else
      c :: replaceAllAux pat rep fuel cs

/-- Python `s.replace(pat, rep)`. -/
def replaceAllStr (s pat rep : String) : String :=
  String.mk (replaceAllAux pat.toList rep.toList (s.length + 1) s.toList)

/-- Matches of `re.findall(r'\d+\.?\d*', s)`: non-overlapping, left to right,
each match a maximal digit run with an optional dot and further digits. -/
def numberTokensAux : Nat → List Char → List String
  | 0, _ => []
  | _ + 1, [] => []
  | fuel + 1, c :: cs =>
    if c.isDigit then
      let d1 := (c :: cs).takeWhile Char.isDigit
      let rest := (c :: cs).drop d1.length
      match rest with
      | '.' :: r2 =>
        let d2 := r2.takeWhile Char.isDigit
        String.mk (d1 ++ '.' :: d2) :: numberTokensAux fuel (r2.drop d2.length)
      | _ => String.mk d1 :: numberTokensAux fuel rest
    else numberTokensAux fuel cs

/-- `re.findall(r'\d+\.?\d*', s)`. -/
def numberTokens (s : String) : List String :=
  numberTokensAux (s.length + 1) s.toList

/-- `parse_usd_amount` (src/utils/data_processor.py): strip a currency marker,
normalize separators, and take the last number found.  `pd.isna` on a
list-valued cell raises, which the `Except` carries to the caller's handler. -/
def parse_usd_amount (amount_string : PyVal) : Except String ℚ := do
  if ¬ pyTruthy amount_string then return 0
  let isna ← pdIsnaTruthy amount_string
  if isna then return 0
  let amount_str := pyStrip (pyStr amount_string)
  let clean0 :=
    if strContains amount_str "USD" ∨ strContains amount_str "$" then
      pyStrip (removeAll (removeAll amount_str "USD") "$")
    else
      pyStrip (removeAll (removeAll amount_str "TRY") "₺")
  let clean_str :=
    if strContains clean0 "," ∧ strContains clean0 "." then removeAll clean0 ","
    else if strContains clean0 "," ∧ ¬ strContains clean0 "." then replaceAllStr clean0 "," "."
    else clean0
  match (numberTokens clean_str).getLast? with
  | some tok => return ((pyFloatParse tok).getD 0)
  | none => return 0

/-! ## Exchange-rate handler (src/utils/exchange_rate_handler.py)

The Frankfurter service is a parameter (`RateApi`): `historical d` is the rate
the service would answer for date `d` and `current` the latest rate, `none`
covering every recoverable failure (non-200 response, missing currency,
timeout, connection error).  `RateState` is the session state: the date-indexed
cache (entries modelled as currently valid; the 30-day staleness check and the
size-200 pruning depend on wall-clock time and are not exercised by any claim)
and the daily request counter for today.  Status messages are abbreviated; no
claim depends on their text. -/

structure RateApi where
  historical : String → Option ℚ
  current : Option ℚ

structure RateState where
  cache : List (String × ℚ)
  dailyCount : ℕ

/-- `max_daily_requests` (a safety margin below the service's own limit). -/
def maxDailyRequests : ℕ := 900

/-- Cache key `f"{date_str}_{from_currency}_{to_currency}"`. -/
def cacheKey (d f t : String) : String := d ++ "_" ++ f ++ "_" ++ t

/-- `check_daily_limit`. -/
def check_daily_limit (st : RateState) : Bool := st.dailyCount < maxDailyRequests

/-- `get_cached_rate`. -/
def get_cached_rate (st : RateState) (d f t : String) : Option ℚ :=
  (st.cache.find? (fun kv => kv.1 = cacheKey d f t)).map (·.2)

/-- `cache_rate` (dictionary assignment: overwrite the key's binding). -/
def cache_rate (st : RateState) (d f t : String) (r : ℚ) : RateState :=
  { st with cache := (cacheKey d f t, r) :: st.cache.filter (fun kv => kv.1 ≠ cacheKey d f t) }

/-- `fetch_rate_from_frankfurter`: refuse over the daily cap, otherwise issue the
request (counted) and report the service's answer. -/
def fetch_rate_from_frankfurter (api : RateApi) (st : RateState) (dateStr : Option String)
    (fromC toC : String) : (Bool × Option ℚ × String) × RateState :=
  if ¬ check_daily_limit st then
    ((false, none, "Daily API limit reached"), st)
  else
    let st' : RateState := { st with dailyCount := st.dailyCount + 1 }
    match dateStr with
    | some d =>
      match api.historical d with
      | some r => ((true, some r, "Frankfurter API (historical rate)"), st')
      | none => ((false, none, "API error"), st')
    | none =>
      match api.current with
      | some r => ((true, some r, "Frankfurter API (current rate)"), st')
      | none => ((false, none, "API error"), st')

/-- `get_exchange_rate` for an explicit date: cache first; at the daily cap the
USD→TRY pair is answered with the fixed rate 35.0; otherwise fetch the
historical rate, retry with the current rate, and as a last resort fall back to
the fixed rate 35.0 for USD→TRY.  Every success is cached. -/
def get_exchange_rate (api : RateApi) (st : RateState) (dateStr fromC toC : String) :
    (Bool × Option ℚ × String) × RateState :=
  match get_cached_rate st dateStr fromC toC with
  | some r => ((true, some r, "Rate loaded from cache for " ++ dateStr), st)
  | none =>
    if ¬ check_daily_limit st ∧ toC = "TRY" ∧ fromC = "USD" then
      ((true, some 35, "Fixed rate (daily API limit reached)"),
        cache_rate st dateStr fromC toC 35)
    else
      let step1 := fetch_rate_from_frankfurter api st (some dateStr) fromC toC
      let step2 :=
        if ¬ step1.1.1 then
          let f2 := fetch_rate_from_frankfurter api step1.2 none fromC toC
          if f2.1.1 then
            ((f2.1.1, f2.1.2.1, f2.1.2.2 ++ " (historical not available, using current)"), f2.2)
          else f2
        else step1
      let step3 :=
        if ¬ step2.1.1 ∧ toC = "TRY" ∧ fromC = "USD" then
          ((true, some (35 : ℚ), "Fixed fallback rate (API unavailable)"), step2.2)
        else step2
      match step3.1.1, step3.1.2.1 with
      | true, some r =>
        ((true, some r, step3.1.2.2 ++ " (cached for 30 days)"),
          cache_rate step3.2 dateStr fromC toC r)
      | _, _ => ((false, none, step3.1.2.2), step3.2)

/-- `parse_try_amount`: strip the TRY markers, normalize separators and parse;
`none` where Python returns `None`. -/
def parse_try_amount (try_string : PyVal) : Option ℚ :=
  if ¬ pyTruthy try_string then none
  else
    let c0 := pyStrip (removeAll (removeAll (pyStr try_string) "TRY") "₺")
    let c1 :=
      if strContains c0 "," ∧ strContains c0 "." then removeAll c0 ","
      else if strContains c0 "," ∧ ¬ strContains c0 "." then replaceAllStr c0 "," "."
      else c0
    pyFloatParse c1

/-- Does the string match `^\d{4}-\d{2}-\d{2}$` (no calendar validation)? -/
def matchIsoStrict (s : String) : Bool :=
  match s.toList with
  | [y1, y2, y3, y4, h1, m1, m2, h2, d1, d2] =>
    y1.isDigit && y2.isDigit && y3.isDigit && y4.isDigit && h1 = '-' &&
      m1.isDigit && m2.isDigit && h2 = '-' && d1.isDigit && d2.isDigit
  | _ => false

/-- Gregorian leap year. -/
def isLeap (y : Nat) : Bool := y % 4 = 0 && (y % 100 ≠ 0 || y % 400 = 0)

/-- Days in a month. -/
def daysInMonth (y m : Nat) : Nat :=
  if m = 2 then (if isLeap y then 29 else 28)
  else if m = 4 ∨ m = 6 ∨ m = 9 ∨ m = 11 then 30 else 31

/-- `datetime.strptime(s, '%Y-%m-%d')`: 4-digit year, 1–2 digit month and day,
calendar-validated.  Other formats in the sources' format lists are not used by
the repository's normalized data and are not modelled. -/
def parseYMD (s : String) : Option (Nat × Nat × Nat) :=
  match (s.toList.splitOn '-').map String.mk with
  | [ys, ms, ds] =>
    if ys.toList.all Char.isDigit ∧ ys.length = 4 ∧
        ms.toList.all Char.isDigit ∧ (ms.length = 1 ∨ ms.length = 2) ∧
        ds.toList.all Char.isDigit ∧ (ds.length = 1 ∨ ds.length = 2) then
      let y := natOfDigits ys.toList
      let m := natOfDigits ms.toList
      let d := natOfDigits ds.toList
      if 1 ≤ m ∧ m ≤ 12 ∧ 1 ≤ d ∧ d ≤ daysInMonth y m then some (y, m, d) else none
    else none
  | _ => none

/-- Zero-padded 2-digit rendering. -/
def pad2 (n : Nat) : String := if n < 10 then "0" ++ natToStr n else natToStr n

/-- `parse_date_for_api`: the strict ISO regex passes the string through
unvalidated; otherwise `%Y-%m-%d` parsing re-renders it zero-padded. -/
def parse_date_for_api (date_input : PyVal) : Option String :=
  if ¬ pyTruthy date_input then none
  else
    let s := pyStrip (pyStr date_input)
    if matchIsoStrict s then some s
    else match parseYMD s with
      | some (y, m, d) => some (natToStr y ++ "-" ++ pad2 m ++ "-" ++ pad2 d)
      | none => none

/-- `calculate_amazon_cost_usd`: parse the TRY amount and the date, get the rate
for that date and convert, rounding the cost to cents.  A zero rate would make
Python's division raise, carried as an `Except.error`. -/
def calculate_amazon_cost_usd (api : RateApi) (st : RateState)
    (order_total_try order_date : PyVal) :
    Except String ((Bool × Option ℚ × String) × RateState) :=
  match parse_try_amount order_total_try with
  | none => .ok ((false, none, "Could not parse TRY amount"), st)
  | some tryAmount =>
    match parse_date_for_api order_date with
    | none => .ok ((false, none, "Could not parse date"), st)
    | some apiDate =>
      let res := get_exchange_rate api st apiDate "USD" "TRY"
      match res.1.1, res.1.2.1 with
      | true, some r =>
        if r = 0 then .error "float division by zero"
        else .ok ((true, some (pyRound2 (tryAmount / r)), "converted"), res.2)
      | _, _ => .ok ((false, none, "Exchange rate error: " ++ res.1.2.2), res.2)

/-! ## Profit calculation (src/utils/data_processor.py, calculate_single_order_profit) -/

/-- The profit block returned by `calculate_single_order_profit` (field names as
in the source's result dictionary). -/
structure ProfitResult where
  calculated_ebay_earning_usd : ℚ
  calculated_amazon_cost_usd : ℚ
  calculated_profit_usd : ℚ
  calculated_margin_percent : ℚ
  calculated_roi_percent : ℚ
  cost_calculation_method : String
  exchange_rate_used : Option ℚ
  deriving DecidableEq

/-- The eBay earning fields probed in order. -/
def earningFields : List String :=
  ["Order earnings", "order_earnings", "earnings", "profit", "revenue"]

/-- The delivery-status fields probed in order. -/
def deliveryFields : List String :=
  ["deliveryStatus", "amazon_deliverystatus", "amazon_delivery_status", "amazon_status",
   "deliverystatus", "delivery_status", "status"]

/-- The return keywords checked as case-insensitive substrings. -/
def returnKeywords : List String :=
  ["returned", "refunded", "refund", "cancelled", "return complete"]

/-- The existing-USD-cost fields probed in order (priority 3). -/
def existingUsdFields : List String :=
  ["amazon_cost_usd", "Amazon cost USD", "cost_usd", "usd_cost"]

/-- First eBay earning that is present, not NA and floats; 0 when none does.
`pd.notna` on a list cell raises. -/
def extractEbayEarning : List String → PyDict → Except String ℚ
  | [], _ => .ok 0
  | f :: fs, e =>
    match dictGet e f with
    | none => extractEbayEarning fs e
    | some v => do
      let b ← pdNotnaTruthy v
      if b then
        match pyFloatOf v with
        | some x => .ok x
        | none => extractEbayEarning fs e
      else extractEbayEarning fs e

/-- First truthy cell among the given fields; `''` when none. -/
def firstTruthyField : List String → PyDict → PyVal
  | [], _ => .str ""
  | f :: fs, d =>
    match dictGet d f with
    | some v => if pyTruthy v then v else firstTruthyField fs d
    | none => firstTruthyField fs d

/-- The delivery status extracted by the calculator: first truthy delivery
field, stringified, stripped and lowercased. -/
def deliveryStatusOf (a : PyDict) : String :=
  pyLower (pyStrip (pyStr (firstTruthyField deliveryFields a)))

/-- Return detection: any return keyword occurs in the delivery status. -/
def isReturnedOrder (a : PyDict) : Bool :=
  returnKeywords.any (fun k => strContains (deliveryStatusOf a) k)

/-- Priority-3 scan over existing USD cost fields: first positive parse wins. -/
def existingUsdScan : List String → PyDict → Except String (Option ℚ)
  | [], _ => .ok none
  | f :: fs, a =>
    match dictGet a f with
    | none => existingUsdScan fs a
    | some v => do
      let b ← pdNotnaTruthy v
      if b then
        let s := pyStr v
        if s ≠ "" ∧ s ≠ "Not available" then
          let parsed ← parse_usd_amount (.str s)
          if parsed > 0 then .ok (some parsed) else existingUsdScan fs a
        else existingUsdScan fs a
      else existingUsdScan fs a

/-- The order total used by the calculator:
`amazon_data.get('orderTotal') or amazon_data.get('grand_total', '')`. -/
def orderTotalOf (a : PyDict) : PyVal :=
  let ot := dictGetD a "orderTotal" .none_
  if pyTruthy ot then ot else dictGetD a "grand_total" (.str "")

/-- The order date used by priority 2:
`amazon_data.get('orderDate') or amazon_data.get('order_date', '')`. -/
def orderDateOf (a : PyDict) : PyVal :=
  let od := dictGetD a "orderDate" .none_
  if pyTruthy od then od else dictGetD a "order_date" (.str "")

/-- Final assembly of the profit block (the `round(..., 2)` calls of the source). -/
def finishProfit (earn cost : ℚ) (method : String) (rate : Option ℚ) : ProfitResult :=
  let profit := earn - cost
  let margin := if earn > 0 then profit / earn * 100 else 0
  let roi := if cost > 0 then profit / cost * 100 else 0
  { calculated_ebay_earning_usd := pyRound2 earn
    calculated_amazon_cost_usd := pyRound2 cost
    calculated_profit_usd := pyRound2 profit
    calculated_margin_percent := pyRound2 margin
    calculated_roi_percent := pyRound2 roi
    cost_calculation_method := method
    exchange_rate_used := rate }

/-- Priorities 3 and 4 of the cost chain, entered with the cost, method and rate
accumulated by priorities 1–2. -/
def costStage34 (a : PyDict) (order_total : PyVal) (cost : ℚ) (method : String)
    (rate : Option ℚ) (st : RateState) :
    Except (String × RateState) ((ℚ × String × Option ℚ) × RateState) := do
  let (cost, method) ←
    if cost = 0 then
      match existingUsdScan existingUsdFields a with
      | .error m => .error (m, st)
      | .ok (some p) => .ok (p, "existing_usd_field")
      | .ok none => .ok (cost, method)
    else .ok (cost, method)
  if cost = 0 ∧ pyTruthy order_total ∧ strContains (pyStr order_total) "TRY" then
    match parse_usd_amount order_total with
    | .error m => .error (m, st)
    | .ok tryAmount =>
      if tryAmount > 0 then
        .ok ((tryAmount / 34, "fallback_rate_34.0_try_per_usd", some (34 : ℚ)), st)
      else .ok ((cost, method, rate), st)
  else .ok ((cost, method, rate), st)

/-- The body of `calculate_single_order_profit` (everything inside its `try`).
An `Except.error` is an uncaught Python exception reaching the outer handler,
paired with the session state at that point. -/
def calcProfitBody (api : RateApi) (st : RateState) (e a : PyDict) :
    Except (String × RateState) (ProfitResult × RateState) := do
  let ebay_earning ←
    match extractEbayEarning earningFields e with
    | .error m => .error (m, st)
    | .ok x => .ok x
  if isReturnedOrder a then
    return (finishProfit ebay_earning 0 "return_detected_cost_zero" none, st)
  else
    let order_total := orderTotalOf a
    let totStr := pyStr order_total
    -- Priorities 1 and 2 produce a cost, a method tag, a rate and a state.
    let ((cost, method, rate), st1) ←
      if pyTruthy order_total ∧ (strContains totStr "USD" ∨ strContains totStr "$") then
        match parse_usd_amount order_total with
        | .error m => .error (m, st)
        | .ok usd =>
          if usd > 0 then .ok (((usd, "usd_direct_no_conversion", none), st) :
            (ℚ × String × Option ℚ) × RateState)
          else .ok (((0, "unknown", none), st))
      else if pyTruthy order_total ∧ strContains totStr "TRY" then
        let order_date := orderDateOf a
        if pyTruthy order_date then
          match calculate_amazon_cost_usd api st order_total order_date with
          | .error m => .error (m, st)
          | .ok ((success, costOpt, _msg), st') =>
            if success then
              let c := costOpt.getD 0
              match parse_usd_amount order_total with
              | .error m => .error (m, st')
              | .ok tryAmount =>
                if tryAmount > 0 ∧ c > 0 then
                  let r := pyRound2 (tryAmount / c)
                  .ok ((c, "api_rate_" ++ pyFloatStr r ++ "_try_per_usd", some r), st')
                else .ok ((c, "api_conversion_success", none), st')
            else .ok ((0, "unknown", none), st')
        else .ok ((0, "unknown", none), st)
      else .ok ((0, "unknown", none), st)
    let ((cost, method, rate), st2) ← costStage34 a order_total cost method rate st1
    return (finishProfit ebay_earning cost method rate, st2)

/-- `calculate_single_order_profit`: the body under a catch-all handler that
returns the zeroed error block (`cost_calculation_method = "error: ..."`). -/
def calculate_single_order_profit (api : RateApi) (st : RateState) (e a : PyDict) :
    ProfitResult × RateState :=
  match calcProfitBody api st e a with
  | .ok r => r
  | .error (m, st') =>
    ({ calculated_ebay_earning_usd := 0
       calculated_amazon_cost_usd := 0
       calculated_profit_usd := 0
       calculated_margin_percent := 0
       calculated_roi_percent := 0
       cost_calculation_method := "error: " ++ m
       exchange_rate_used := none }, st')

/-! ## Fuzzy string scoring (the `fuzzywuzzy` primitives used by the sources)

The repository's `pip` instructions install `fuzzywuzzy` with
`python-Levenshtein`, whose `ratio` equals `2·LCS(s1,s2)/(len(s1)+len(s2))`
scaled to 0–100 and rounded half-to-even (substitution cost 2 makes the
weighted edit distance `len1+len2−2·LCS`).  `partial_ratio` is modelled by its
documented semantics — the best `ratio` of the shorter string against the
same-length substrings of the longer (the library scores the block-aligned
subset of those candidates).  `token_set_ratio` follows the library's
`_token_set` construction. -/

/-- Longest common subsequence worker: `f` computes the LCS of the tail. -/
def lcsAux (f : List Char → Nat) (a : Char) : List Char → Nat
  | [] => 0
  | b :: bs => if a = b then f bs + 1 else max (f (b :: bs)) (lcsAux f a bs)

/-- Longest common subsequence length of two character lists. -/
def lcs : List Char → List Char → Nat
  | [], _ => 0
  | a :: as, l2 => lcsAux (lcs as) a l2

/-- `fuzz.ratio` on character lists: `round(100 · 2·LCS/(len1+len2))`, and 100
for two empty strings. -/
def fuzzRatioChars (l1 l2 : List Char) : ℕ :=
  if l1.length + l2.length = 0 then 100
  else (bankersRound ((200 * lcs l1 l2 : ℚ) / (l1.length + l2.length))).toNat

/-- `fuzz.ratio` on strings. -/
def fuzzRatioScore (s1 s2 : String) : ℕ := fuzzRatioChars s1.toList s2.toList

/-- `fuzz.partial_ratio`: best ratio of the shorter string against the
same-length substrings of the longer; 100 when the shorter is empty. -/
def fuzzPartialScore (s1 s2 : String) : ℕ :=
  let sh := if s1.length ≤ s2.length then s1.toList else s2.toList
  let lo := if s1.length ≤ s2.length then s2.toList else s1.toList
  if sh.isEmpty then 100
  else
    ((List.range (lo.length - sh.length + 1)).map
      (fun i => fuzzRatioChars sh ((lo.drop i).take sh.length))).foldl max 0

/-- `fuzzywuzzy.utils.full_process`: non-alphanumerics (keeping `_`) become
spaces, lowercased, stripped. -/
def fullProcess (s : String) : String :=
  pyStrip (pyLower (String.mk (s.toList.map (fun c => if isWordChar c then c else ' '))))

/-- Lexicographic order on strings by code point (Python `sorted`). -/
def strLeChars : List Char → List Char → Bool
  | [], _ => true
  | _ :: _, [] => false
  | a :: as, b :: bs => if a = b then strLeChars as bs else decide (a.toNat < b.toNat)

/-- Insert into a sorted list (stable). -/
def insertSorted (x : String) : List String → List String
  | [] => [x]
  | y :: ys => if strLeChars x.toList y.toList then x :: y :: ys else y :: insertSorted x ys

/-- Python `sorted` on strings. -/
def pySortStrings (l : List String) : List String := l.foldr insertSorted []

/-- `fuzz.token_set_ratio`: full-process both sides, split into token sets, and
take the best ratio among the sorted intersection and the two
intersection-plus-difference combinations. -/
def fuzzTokenSetScore (s1 s2 : String) : ℕ :=
  let p1 := fullProcess s1
  let p2 := fullProcess s2
  if p1.length = 0 ∨ p2.length = 0 then 0
  else
    let t1 := (pySplitWs p1).eraseDups
    let t2 := (pySplitWs p2).eraseDups
    let inter := pySortStrings (t1.filter (fun w => t2.contains w))
    let d12 := pySortStrings (t1.filter (fun w => !t2.contains w))
    let d21 := pySortStrings (t2.filter (fun w => !t1.contains w))
    let sect := " ".intercalate inter
    let c1 := pyStrip (sect ++ " " ++ " ".intercalate d12)
    let c2 := pyStrip (sect ++ " " ++ " ".intercalate d21)
    max (fuzzRatioScore sect c1) (max (fuzzRatioScore sect c2) (fuzzRatioScore c1 c2))

/-! ## International matcher (src/utils/international_matcher.py)

Orders are modelled as the rows the matching loop actually scores: the
normalized row dictionaries produced by `normalize_data` /
`normalize_amazon_data_enhanced`.  Normalized columns are plain strings (the
normalizers fill missing ones with `''`); raw-format columns that survive
normalization (`shippingAddress`, `ship_to`, `orderId`, `orderDate`,
`order_placed`, `products`, `amazon_account`) are optional.  `raw` is the
original row dictionary, which the loop passes to the profit calculator. -/

structure ShippingAddress where
  name : Option String
  fullAddress : Option String

structure EbayOrder where
  order_id : String
  buyer_name : String
  ship_city : String
  ship_state : String
  ship_zip : String
  ship_country : String
  item_title : String
  order_date : String
  raw : PyDict

structure AmazonOrder where
  orderId : Option String
  amazon_account : Option String
  shippingAddress : Option ShippingAddress
  ship_to : Option String
  products : Option (List (Option String))
  orderDate : Option String
  order_placed : Option String
  full_address : String
  buyer_name : String
  ship_city : String
  ship_state : String
  ship_zip : String
  ship_country : String
  item_title : String
  order_date : String
  raw : PyDict

/-- Configurable thresholds of the international matcher. -/
structure IMConfig where
  name_threshold : ℕ
  product_threshold : ℕ

/-- The constructor defaults: name 85, product 50. -/
def defaultIMConfig : IMConfig := { name_threshold := 85, product_threshold := 50 }

/-- `extract_amazon_address`: `shippingAddress.name`, else
`shippingAddress.fullAddress`, else `ship_to`, else the joined name fields (for
normalized rows, `buyer_name`); stripped. -/
def extract_amazon_address (a : AmazonOrder) : String :=
  let fromShipping :=
    match a.shippingAddress with
    | some sa =>
      match sa.name with
      | some n =>
        if n ≠ "" then n
        else match sa.fullAddress with
          | some fa => if fa ≠ "" then fa else ""
          | none => ""
      | none =>
        match sa.fullAddress with
        | some fa => if fa ≠ "" then fa else ""
        | none => ""
    | none => ""
  let withShipTo := if fromShipping = "" then (a.ship_to.getD "") else fromShipping
  let address := if withShipTo = "" then a.buyer_name else withShipTo
  pyStrip address

/-- `extract_ebay_buyer` on a normalized row: the `buyer_name` column, stripped. -/
def extract_ebay_buyer (e : EbayOrder) : String := pyStrip e.buyer_name

/-- Python `str.upper()` (ASCII). -/
def pyUpper (s : String) : String := String.mk (s.toList.map Char.toUpper)

/-- `extract_ebay_country` on a normalized row: the `ship_country` column, uppercased. -/
def extract_ebay_country (e : EbayOrder) : String := pyUpper e.ship_country

/-- The `international_countries` set. -/
def internationalCountries : List String :=
  ["MX", "CA", "BR", "AR", "CL", "CO", "PE", "AU", "NZ",
   "GB", "DE", "FR", "IT", "ES", "JP", "KR", "IN"]

/-- Case-insensitive character match (ASCII). -/
def charCI (c pat : Char) : Bool := c.toLower = pat

/-- Try the eIS CO pattern `eIS\s+CO\s+(.+)` (ignore-case) anchored at this
position; the capture runs greedily to the end of the line. -/
def eisMatchAt (l : List Char) : Option (List Char) :=
  match l with
  | c1 :: c2 :: c3 :: rest =>
    if charCI c1 'e' && charCI c2 'i' && charCI c3 's' then
      let ws1 := rest.takeWhile Char.isWhitespace
      if ws1.isEmpty then none
      else
        match rest.drop ws1.length with
        | c4 :: c5 :: rest2 =>
          if charCI c4 'c' && charCI c5 'o' then
            let ws2 := rest2.takeWhile Char.isWhitespace
            if ws2.isEmpty then none
            else
              let cap := (rest2.drop ws2.length).takeWhile (fun c => c ≠ '\n')
              if cap.isEmpty then none else some cap
          else none
        | _ => none
    else none
  | _ => none

/-- Leftmost match of the eIS CO pattern (Python `re.search`), with fuel. -/
def eisSearch : Nat → List Char → Option (List Char)
  | 0, _ => none
  | _ + 1, [] => none
  | fuel + 1, c :: cs =>
    match eisMatchAt (c :: cs) with
    | some cap => some cap
    | none => eisSearch fuel cs

/-- `clean_extracted_name`: first line, non-alphabetic characters (except
whitespace) replaced by spaces, at most three words kept. -/
def clean_extracted_name (raw_name : String) : String :=
  if raw_name = "" then ""
  else
    let first_line := pyStrip ((raw_name.splitOn "\n").headD "")
    let cleaned := String.mk (first_line.toList.map
      (fun c => if c.isAlpha || c.isWhitespace then c else ' '))
    " ".intercalate ((pySplitWs cleaned).take 3)

/-- `detect_eis_pattern`: search for the carrier pattern and clean the captured
recipient text (`some ""` when the capture cleans to nothing, which callers
treat like no pattern). -/
def detect_eis_pattern (amazon_address : String) : Option String :=
  if amazon_address = "" then none
  else
    match eisSearch (amazon_address.length + 1) amazon_address.toList with
    | some cap => some (clean_extracted_name (pyStrip (String.mk cap)))
    | none => none

/-- `calculate_name_similarity`: best of ratio, partial ratio and token-set
ratio on the lowercased, stripped names. -/
def calculate_name_similarity (ebay_buyer extracted_name : String) : ℕ :=
  if ebay_buyer = "" ∨ extracted_name = "" then 0
  else
    let e1 := pyStrip (pyLower ebay_buyer)
    let e2 := pyStrip (pyLower extracted_name)
    max (fuzzRatioScore e1 e2) (max (fuzzPartialScore e1 e2) (fuzzTokenSetScore e1 e2))

/-- `extract_product_title` for an eBay row (`item_title` column of the
normalized row). -/
def extract_product_title_ebay (e : EbayOrder) : String := e.item_title

/-- `extract_product_title` for an Amazon row: title of the first `products`
entry when present and non-empty, else the `item_title` column. -/
def extract_product_title_amazon (a : AmazonOrder) : String :=
  let fromProducts :=
    match a.products with
    | some (p :: _) => p.getD ""
    | _ => ""
  if fromProducts ≠ "" then fromProducts else a.item_title

/-- `calculate_product_similarity`: token-set ratio of the lowercased titles; 0
when either is missing. -/
def calculate_product_similarity (e : EbayOrder) (a : AmazonOrder) : ℕ :=
  let et := extract_product_title_ebay e
  let am := extract_product_title_amazon a
  if et = "" ∨ am = "" then 0
  else fuzzTokenSetScore (pyLower et) (pyLower am)

/-- `extract_date` for an Amazon row: first truthy of `orderDate`,
`order_date`, `order_placed`. -/
def extract_date_amazon (a : AmazonOrder) : String :=
  let d1 := a.orderDate.getD ""
  if d1 ≠ "" then d1
  else if a.order_date ≠ "" then a.order_date
  else a.order_placed.getD ""

/-- `validate_dates`: the implementation skips strict validation and always
returns `(True, "date_validation_skipped")`. -/
def validate_dates (_e : EbayOrder) (_a : AmazonOrder) : Bool × String :=
  (true, "date_validation_skipped")

/-- Result dictionary of `match_international_order` (optional keys of the
no-match variants are `Option`s). -/
structure IntlResult where
  is_match : Bool
  match_method : String
  confidence : ℚ
  total_score : ℚ
  date_status : String
  days_difference : ℤ
  reason : Option String
  name_similarity : Option ℕ
  product_similarity : Option ℕ
  extracted_name : Option String
  is_international : Option Bool
  ebay_country : Option String

/-- `create_no_match_result`. -/
def create_no_match_result (reason : String) : IntlResult :=
  { is_match := false, match_method := "eis_co_no_match", confidence := 0,
    total_score := 0, date_status := "not_checked", days_difference := 999,
    reason := some reason, name_similarity := none, product_similarity := none,
    extracted_name := none, is_international := none, ebay_country := none }

/-- `match_international_order`: extract, detect the eIS CO pattern, gate on the
name and product thresholds and the (skipped) date check; on success the score
is `min(95, (name_similarity + product_similarity) / 2)` with
`match_method = 'eis_co_international'`. -/
def match_international_order (cfg : IMConfig) (e : EbayOrder) (a : AmazonOrder) : IntlResult :=
  let amazon_address := extract_amazon_address a
  let ebay_buyer := extract_ebay_buyer e
  let ebay_country := extract_ebay_country e
  if amazon_address = "" ∨ ebay_buyer = "" then create_no_match_result "missing_data"
  else
    let is_international := internationalCountries.contains ebay_country
    match detect_eis_pattern amazon_address with
    | none => create_no_match_result "no_eis_pattern"
    | some extracted_name =>
      if extracted_name = "" then create_no_match_result "no_eis_pattern"
      else
        let name_similarity := calculate_name_similarity ebay_buyer extracted_name
        if ¬ (name_similarity ≥ cfg.name_threshold) then
          { create_no_match_result "name_threshold_failed" with
              name_similarity := some name_similarity,
              extracted_name := some extracted_name }
        else
          let product_similarity := calculate_product_similarity e a
          if ¬ (product_similarity ≥ cfg.product_threshold) then
            { create_no_match_result "product_threshold_failed" with
                product_similarity := some product_similarity }
          else
            let dv := validate_dates e a
            if ¬ dv.1 then
              create_no_match_result "date_validation_failed"
            else
              { is_match := true, match_method := "eis_co_international",
                confidence := min 95 (((name_similarity : ℚ) + (product_similarity : ℚ)) / 2),
                total_score := min 95 (((name_similarity : ℚ) + (product_similarity : ℚ)) / 2),
                date_status := dv.2, days_difference := 0,
                reason := none, name_similarity := some name_similarity,
                product_similarity := some product_similarity,
                extracted_name := some extracted_name,
                is_international := some is_international,
                ebay_country := some ebay_country }

/-! ## Domestic scoring (src/pages/2_Order_Matcher.py, DropshippingMatcher) -/

/-- Day number of a Gregorian date (era formula, valid for the parsed years
`y ≥ 1`); differences of day numbers are `timedelta.days` for midnight dates. -/
def daysFromCivil (y m d : Nat) : Nat :=
  let yAdj := if m ≤ 2 then y - 1 else y
  let mAdj := if m ≤ 2 then m + 9 else m - 3
  365 * yAdj + yAdj / 4 - yAdj / 100 + yAdj / 400 + (153 * mAdj + 2) / 5 + (d - 1)

/-- `parse_date`: empty/NaN gives `None`; the repository's normalized rows carry
ISO `%Y-%m-%d` dates, the first entry of the source's format list (its further
formats and the `dateutil` fallback are not exercised and are not modelled). -/
def parse_date (date_str : String) : Option Nat :=
  if date_str = "" then none
  else
    match parseYMD (pyStrip date_str) with
    | some (y, m, d) => some (daysFromCivil y m d)
    | none => none

/-- `check_date_logic`: Amazon must not precede eBay; unparsable sides skip the
check with a zero day difference. -/
def check_date_logic (ebay_date amazon_date : String) : Bool × String × ℤ :=
  match parse_date ebay_date, parse_date amazon_date with
  | some e, some a =>
    let days_diff : ℤ := (a : ℤ) - (e : ℤ)
    if a < e then (false, "date_invalid", days_diff) else (true, "date_valid", days_diff)
  | _, _ => (true, "date_skip", 0)

/-- The state abbreviation table of `match_state`. -/
def stateAbbrev : List (String × String) :=
  [("al", "alabama"), ("ak", "alaska"), ("az", "arizona"), ("ar", "arkansas"),
   ("ca", "california"), ("co", "colorado"), ("ct", "connecticut"), ("de", "delaware"),
   ("fl", "florida"), ("ga", "georgia"), ("hi", "hawaii"), ("id", "idaho"),
   ("il", "illinois"), ("in", "indiana"), ("ia", "iowa"), ("ks", "kansas"),
   ("ky", "kentucky"), ("la", "louisiana"), ("me", "maine"), ("md", "maryland"),
   ("ma", "massachusetts"), ("mi", "michigan"), ("mn", "minnesota"), ("ms", "mississippi"),
   ("mo", "missouri"), ("mt", "montana"), ("ne", "nebraska"), ("nv", "nevada"),
   ("nh", "new hampshire"), ("nj", "new jersey"), ("nm", "new mexico"), ("ny", "new york"),
   ("nc", "north carolina"), ("nd", "north dakota"), ("oh", "ohio"), ("ok", "oklahoma"),
   ("or", "oregon"), ("pa", "pennsylvania"), ("ri", "rhode island"), ("sc", "south carolina"),
   ("sd", "south dakota"), ("tn", "tennessee"), ("tx", "texas"), ("ut", "utah"),
   ("vt", "vermont"), ("va", "virginia"), ("wa", "washington"), ("wv", "west virginia"),
   ("wi", "wisconsin"), ("wy", "wyoming")]

/-- `match_state`: exact substring, else abbreviation-to-full (and reverse)
table lookups; binary 0/100. -/
def match_state (ebay_state amazon_address : String) : ℕ :=
  if ebay_state = "" ∨ amazon_address = "" then 0
  else
    let ec := pyStrip (pyLower ebay_state)
    let ac := pyLower amazon_address
    if strContains ac ec then 100
    else
      let viaAbbrev :=
        match stateAbbrev.find? (fun p => p.1 = ec) with
        | some p => strContains ac p.2
        | none => false
      if viaAbbrev then 100
      else if stateAbbrev.any (fun p => ec = p.2 ∧ strContains ac p.1) then 100
      else 0

/-- Non-overlapping matches of `re.findall(r'\d{5}', s)`, with fuel. -/
def fiveDigitRunsAux : Nat → List Char → List String
  | 0, _ => []
  | _ + 1, [] => []
  | fuel + 1, c :: cs =>
    let five := (c :: cs).take 5
    if five.length = 5 ∧ five.all Char.isDigit then
      String.mk five :: fiveDigitRunsAux fuel ((c :: cs).drop 5)
    else fiveDigitRunsAux fuel cs

/-- `re.findall(r'\d{5}', s)`. -/
def fiveDigitRuns (s : String) : List String :=
  fiveDigitRunsAux (s.length + 1) s.toList

/-- `match_zip_code`: first 5-digit run of the claimed zip against all 5-digit
runs in the address; binary 0/100. -/
def match_zip_code (ebay_zip amazon_address : String) : ℕ :=
  if ebay_zip = "" ∨ amazon_address = "" then 0
  else
    match fiveDigitRuns ebay_zip with
    | [] => 0
    | z :: _ => if (fiveDigitRuns amazon_address).contains z then 100 else 0

/-- The unit words of `standardize_product_terms` (the `\d+h` pattern rewrites
matched text to itself and needs no action). -/
def unitWords : List String := ["pack", "piece", "set", "ml", "oz"]

/-- Is the position after this prefix a word boundary? -/
def boundaryAfter (u : List Char) (l : List Char) : Bool :=
  match (l.drop u.length).head? with
  | some c => !isWordChar c
  | none => true

/-- Worker for `standardize_product_terms`: rewrite `\b(\d+)\s*<unit>\b` to the
digits glued to the unit, scanning left to right (`prevWord` tracks the word
boundary before a digit run). -/
def stdTermsAux : Nat → Bool → List Char → List Char
  | 0, _, l => l
  | _ + 1, _, [] => []
  | fuel + 1, prevWord, c :: cs =>
    if !prevWord && c.isDigit then
      let ds := (c :: cs).takeWhile Char.isDigit
      let rest := (c :: cs).drop ds.length
      let sp := rest.takeWhile Char.isWhitespace
      let rest2 := rest.drop sp.length
      match unitWords.find? (fun u => listStartsWith u.toList rest2 && boundaryAfter u.toList rest2) with
      | some u => ds ++ u.toList ++ stdTermsAux fuel true (rest2.drop u.length)
      | none => ds ++ stdTermsAux fuel true rest
    else c :: stdTermsAux fuel (isWordChar c) cs

/-- `standardize_product_terms`: lowercase and glue quantity tokens to their units. -/
def standardize_product_terms (title : String) : String :=
  if title = "" then ""
  else String.mk (stdTermsAux (title.length + 1) false (pyLower title).toList)

/-- The stopword set of `extract_key_words`. -/
def stopwords : List String :=
  ["a", "an", "the", "and", "or", "but", "in", "on", "at", "is", "are",
   "item", "product", "brand", "shipping", "delivery", "with", "from"]

/-- `extract_key_words` (default minimum length 2): standardize, break hyphens,
keep cleaned alphanumeric non-stopword non-numeric words as a set. -/
def extract_key_words (title : String) : List String :=
  if title = "" then []
  else
    let standardized := replaceAllStr (standardize_product_terms title) "-" " "
    ((pySplitWs standardized).filterMap (fun w =>
      let clean := String.mk (w.toList.filter isWordChar)
      if clean.length ≥ 2 ∧ ¬ stopwords.contains clean ∧
          ¬ clean.toList.all Char.isDigit ∧ clean.toList.all Char.isAlphanum then
        some clean
      else none)).eraseDups

/-- `calculate_title_similarity`: max of ratio, partial ratio, token-set ratio
and the keyword Jaccard index on standardized titles, truncated to an integer. -/
def calculate_title_similarity (ebay_title amazon_title : String) : ℕ :=
  if ebay_title = "" ∨ amazon_title = "" then 0
  else
    let es := standardize_product_terms ebay_title
    let as_ := standardize_product_terms amazon_title
    let direct := fuzzRatioScore es as_
    let part := fuzzPartialScore es as_
    let tok := fuzzTokenSetScore es as_
    let ek := extract_key_words es
    let ak := extract_key_words as_
    let kw : ℚ :=
      if ¬ ek.isEmpty ∧ ¬ ak.isEmpty then
        ((ek.filter (fun w => ak.contains w)).length : ℚ) /
          ((ek ++ ak.filter (fun w => !ek.contains w)).length : ℚ) * 100
      else 0
    (Int.floor (max (max (direct : ℚ) (part : ℚ)) (max (tok : ℚ) kw))).toNat

/-- `find_best_match_in_address`: exact substring scores 100, else the best
fuzzy ratio over address words (length ≥ 2), with partial ratio added for words
longer than 4. -/
def find_best_match_in_address (search_term address : String) : ℕ :=
  if search_term = "" ∨ address = "" then 0
  else
    let sc := pyStrip (pyLower search_term)
    let ac := pyStrip (pyLower address)
    if strContains ac sc then 100
    else
      (wordRuns ac).foldl (fun best w =>
        if w.length ≥ 2 then
          let b1 := max best (fuzzRatioScore sc w)
          if w.length > 4 then max b1 (fuzzPartialScore sc w) else b1
        else best) 0

/-- Modelled from the spec: `enhanced_fuzzy_name_match` is imported from
`utils.data_processor` by `find_best_match_in_address_enhanced`, but no
definition exists anywhere under `src/`; the spec describes the name-in-address
scorer as an exact substring check (score 100) or else the best of fuzzy ratio
and partial ratio (§4.2). -/
def enhanced_fuzzy_name_match (name word : String) : ℕ :=
  if name = "" ∨ word = "" then 0
  else
    let n := pyStrip (pyLower name)
    let w := pyStrip (pyLower word)
    if strContains w n then 100 else max (fuzzRatioScore n w) (fuzzPartialScore n w)

/-- `find_best_match_in_address_enhanced`: exact substring scores 100, else the
best enhanced score over address words of length ≥ 4 (the source passes the
unlowered search term to the word scorer). -/
def find_best_match_in_address_enhanced (search_term address : String) : ℕ :=
  if search_term = "" ∨ address = "" then 0
  else
    let sc := pyStrip (pyLower search_term)
    let ac := pyStrip (pyLower address)
    if strContains ac sc then 100
    else
      (wordRuns ac).foldl (fun best w =>
        if w.length ≥ 4 then max best (enhanced_fuzzy_name_match search_term w) else best) 0

/-! ## Composite scoring and the matching loop -/

/-- The configurable weights of the composite score. -/
structure Weights where
  name : ℚ
  zip : ℚ
  title : ℚ
  city : ℚ
  state : ℚ

/-- The constructor defaults: name 0.30, zip 0.25, title 0.25, city 0.12, state 0.08. -/
def defaultWeights : Weights :=
  { name := 30/100, zip := 25/100, title := 25/100, city := 12/100, state := 8/100 }

/-- The score dictionary consumed by the matching loop (`match_method` is set
only by the international path, matching `match_details.get('match_method')`). -/
structure ScoreResult where
  total_score : ℚ
  is_match : Bool
  days_difference : ℤ
  date_status : String
  match_method : Option String

/-- The address parts `extract_address_from_shipping_object` can extract from a
shipping dictionary of the repository's shape (`name` plus `fullAddress`; the
latter is not among the extractor's field lists). -/
def shippingPartsName (sa : ShippingAddress) : Option String :=
  match sa.name with
  | some n => if n ≠ "" then some n else none
  | none => none

/-- The address text assembled by `calculate_match_score_enhanced`: the
`full_address` column, else the shipping-object parts, else the positional join
of the name/city/state/zip/country columns. -/
def domesticAddress (a : AmazonOrder) : String :=
  if a.full_address ≠ "" then a.full_address
  else
    match a.shippingAddress with
    | some sa =>
      match shippingPartsName sa with
      | some n => n
      | none => ""
    | none =>
      " ".intercalate
        ([a.buyer_name, a.ship_city, a.ship_state, a.ship_zip, a.ship_country].filter
          (fun p => p ≠ "" ∧ p ≠ "nan"))

/-- The punctuation probe of the hybrid name matching. -/
def hasPunctuation (s : String) : Bool :=
  ['.', '-', '\'', '"', '/', '&'].any (fun c => s.toList.contains c)

/-- `calculate_match_score_enhanced`: hybrid name score, city/state/zip/title
sub-scores, date check, and the weighted total; a pair is a match when the
total clears the threshold and the date is valid. -/
def calculate_match_score_enhanced (w : Weights) (threshold : ℚ)
    (e : EbayOrder) (a : AmazonOrder) : ScoreResult :=
  let address := domesticAddress a
  if pyStrip address = "" then
    { total_score := 0, is_match := false, days_difference := 999,
      date_status := "no_address", match_method := none }
  else
    let name_score : ℕ :=
      if hasPunctuation e.buyer_name then
        find_best_match_in_address_enhanced e.buyer_name address
      else find_best_match_in_address e.buyer_name address
    let city_score := find_best_match_in_address e.ship_city address
    let state_score := match_state e.ship_state address
    let zip_score := match_zip_code e.ship_zip address
    let title_score := calculate_title_similarity e.item_title a.item_title
    let dateRes := check_date_logic e.order_date a.order_date
    let total : ℚ := (name_score : ℚ) * w.name + (city_score : ℚ) * w.city +
      (state_score : ℚ) * w.state + (zip_score : ℚ) * w.zip + (title_score : ℚ) * w.title
    { total_score := pyRound1 total,
      is_match := decide (total ≥ threshold) && dateRes.1,
      days_difference := dateRes.2.2,
      date_status := dateRes.2.1,
      match_method := none }

/-- `calculate_match_score_with_international`: the international matcher is
tried first and supersedes domestic scoring when it fires. -/
def calculate_match_score_with_international (cfg : IMConfig) (w : Weights) (threshold : ℚ)
    (e : EbayOrder) (a : AmazonOrder) : ScoreResult :=
  let ir := match_international_order cfg e a
  if ir.is_match then
    { total_score := ir.total_score, is_match := ir.is_match,
      days_difference := ir.days_difference, date_status := ir.date_status,
      match_method := some ir.match_method }
  else calculate_match_score_enhanced w threshold e a

/-- The composite key `f"{orderId}_{amazon_account}"` built by the loop. -/
def compositeKeyOf (a : AmazonOrder) : String :=
  a.orderId.getD "" ++ "_" ++ a.amazon_account.getD ""

/-- A candidate entry of `potential_matches`. -/
structure Candidate where
  amazon : AmazonOrder
  amazon_composite_key : String
  match_score : ℚ
  days_difference : ℤ
  match_details : ScoreResult

/-- The candidate scan for one eBay order: skip supplier orders whose composite
key is already consumed, score the rest, and keep those with `is_match` and a
total at or above the threshold, in input order. -/
def gatherCandidates (cfg : IMConfig) (w : Weights) (threshold : ℚ) (e : EbayOrder)
    (amazons : List AmazonOrder) (used : List String) : List Candidate :=
  amazons.filterMap (fun a =>
    let key := compositeKeyOf a
    if used.contains key then none
    else
      let r := calculate_match_score_with_international cfg w threshold e a
      if r.is_match ∧ r.total_score ≥ threshold then
        some { amazon := a, amazon_composite_key := key, match_score := r.total_score,
               days_difference := r.days_difference, match_details := r }
      else none)

/-- Python `max(xs, key=...)` over a non-empty list: the first element whose key
is maximal (later elements replace the current best only on a strictly greater
key). -/
def pythonMaxBy (key : Candidate → ℚ) (x : Candidate) (xs : List Candidate) : Candidate :=
  xs.foldl (fun acc c => if key c > key acc then c else acc) x

/-- The best-match selection of `match_orders`: a single candidate is taken
directly; otherwise the candidates with the minimal day difference are kept and
the first highest-scoring one among them wins. -/
def selectBest : List Candidate → Option Candidate
  | [] => none
  | [c] => some c
  | c :: cs =>
    let cands := c :: cs
    let minDays := (cands.map (fun m => m.days_difference)).foldl min c.days_difference
    let closest := cands.filter (fun m => m.days_difference = minDays)
    match closest with
    | [] => none
    | [c'] => some c'
    | c' :: cs' => some (pythonMaxBy (fun m => m.match_score) c' cs')

/-- The record the loop emits for a selected pair: the sequential number, the
snapshots of both orders, the match details and the computed profit block (the
source flattens the same data into a single dictionary). -/
structure MatchRecord where
  master_no : ℕ
  ebay : EbayOrder
  amazon : AmazonOrder
  match_details : ScoreResult
  profit : ProfitResult
  is_international_order : Bool
  routing_method : String

/-- `create_match_record_with_international` for a selected candidate. -/
def create_match_record_with_international (api : RateApi) (st : RateState)
    (e : EbayOrder) (best : Candidate) (counter : ℕ) : MatchRecord × RateState :=
  let pr := calculate_single_order_profit api st e.raw best.amazon.raw
  let isIntl := best.match_details.match_method = some "eis_co_international"
  ({ master_no := counter, ebay := e, amazon := best.amazon,
     match_details := best.match_details, profit := pr.1,
     is_international_order := isIntl,
     routing_method := if isIntl then "eis_co_warehouse" else "direct_shipping" }, pr.2)

/-- The loop state of `match_orders`: emitted records, the consumed-key set, the
sequential counter and the session state of the rate handler. -/
structure LoopState where
  records : List MatchRecord
  used : List String
  counter : ℕ
  rate : RateState

/-- One iteration of the matching loop.  The entire matching body of the source
sits inside `if progress_callback:`, so with no callback supplied the iteration
only runs the debug prints and changes nothing. -/
def matchStep (cfg : IMConfig) (w : Weights) (threshold : ℚ) (api : RateApi)
    (callbackSupplied : Bool) (amazons : List AmazonOrder)
    (st : LoopState) (e : EbayOrder) : LoopState :=
  if callbackSupplied then
    let cands := gatherCandidates cfg w threshold e amazons st.used
    match selectBest cands with
    | none => st
    | some best =>
      let used' := best.amazon_composite_key :: st.used
      let (record, rate') :=
        create_match_record_with_international api st.rate e best st.counter
      { records := st.records ++ [record], used := used',
        counter := st.counter + 1, rate := rate' }
  else st

/-- The matching loop of `match_orders` over normalized rows: iterate the eBay
orders in order, gather and select candidates, consume the winner's composite
key and emit a record — all of it guarded by the presence of the progress
callback, exactly as in the source. -/
def match_orders (cfg : IMConfig) (w : Weights) (threshold : ℚ) (api : RateApi)
    (callbackSupplied : Bool) (ebays : List EbayOrder) (amazons : List AmazonOrder)
    (st0 : RateState) : List MatchRecord :=
  (ebays.foldl (matchStep cfg w threshold api callbackSupplied amazons)
    { records := [], used := [], counter := 1, rate := st0 }).records

/-! ## Specification-side definitions

These two definitions follow the specification's words (not the code) and are
compared against the source-derived definitions by the refinement theorems
below. -/

/-- The specification names the tiers of the cost chain `direct`,
`historical_rate`, `existing_field`, `fallback_rate` and `return_detected`
(§4.7–4.8); the source records longer audit strings.  This map sends each
source tag to the specification's tier name. -/
def specMethodTag (m : String) : String :=
  if m = "return_detected_cost_zero" then "return_detected"
  else if m = "usd_direct_no_conversion" then "direct"
  else if listStartsWith "api_rate_".toList m.toList ∨ m = "api_conversion_success" then
    "historical_rate"
  else if m = "existing_usd_field" then "existing_field"
  else if listStartsWith "fallback_rate_".toList m.toList then "fallback_rate"
  else if listStartsWith "error:".toList m.toList then "error"
  else "unknown"

/-- The specification's selection rule (§4.6 step 6): keep the candidates with
the smallest absolute day difference, and among them the first one with the
highest score wins. -/
def specSelect : List Candidate → Option Candidate
  | [] => none
  | c :: cs =>
    let minAbs := (cs.map (fun m => m.days_difference.natAbs)).foldl min c.days_difference.natAbs
    let closest := (c :: cs).filter (fun m => m.days_difference.natAbs = minAbs)
    match closest with
    | [] => none
    | c' :: cs' =>
      let maxScore := (cs'.map (fun m => m.match_score)).foldl max c'.match_score
      (c' :: cs').find? (fun m => m.match_score = maxScore)

/-! ## Concrete fixtures used by the claim theorems -/

/-- A rate service answering 35.0 for every date (Scenario D's service). -/
def fixedRateApi : RateApi := { historical := fun _ => some 35, current := some 35 }

/-- An unreachable rate service (every request fails). -/
def unreachableApi : RateApi := { historical := fun _ => none, current := none }

/-- A fresh session: empty cache, no requests made today. -/
def freshRateState : RateState := { cache := [], dailyCount := 0 }

/-- A session whose daily request cap is exhausted. -/
def cappedRateState : RateState := { cache := [], dailyCount := 900 }

/-- An eBay row with 25.00 of order earnings. -/
def scenarioEbayRow : PyDict := [("Order earnings", .num 25)]

/-- An Amazon row: order total `"500 TRY"`, ISO order date. -/
def scenarioAmazonRow : PyDict :=
  [("orderTotal", .str "500 TRY"), ("orderDate", .str "2024-01-15")]

/-- The same Amazon row with an already-computed USD cost field. -/
def scenarioAmazonRowExisting : PyDict :=
  [("orderTotal", .str "500 TRY"), ("orderDate", .str "2024-01-15"),
   ("amazon_cost_usd", .str "20.00")]

/-- A returned Amazon row (delivery status contains "returned"). -/
def returnedAmazonRow : PyDict :=
  [("deliveryStatus", .str "Package Returned"),
   ("orderTotal", .str "500 TRY"), ("orderDate", .str "2024-01-15")]

/-- An eBay row whose earnings cell is a list: `pd.notna` on it raises. -/
def listValuedEbayRow : PyDict := [("earnings", .list [.num 1, .num 2])]

/-- An international eBay order: buyer John Smith shipping to Mexico. -/
def intlEbayOrder (title date : String) : EbayOrder :=
  { order_id := "E1", buyer_name := "John Smith", ship_city := "", ship_state := "",
    ship_zip := "", ship_country := "MX", item_title := title, order_date := date,
    raw := [] }

/-- A forwarding-warehouse Amazon order: shipping name `eIS CO John Smith`. -/
def intlAmazonOrder (title date : String) : AmazonOrder :=
  { orderId := some "A1", amazon_account := some "acct1",
    shippingAddress := some { name := some "eIS CO John Smith", fullAddress := none },
    ship_to := none, products := none, orderDate := some date, order_placed := none,
    full_address := "", buyer_name := "", ship_city := "", ship_state := "",
    ship_zip := "", ship_country := "", item_title := title, order_date := date,
    raw := [] }

/-- A domestic eBay order (the spec's Scenario A shape). -/
def domesticEbayOrder : EbayOrder :=
  { order_id := "EB-1", buyer_name := "John Smith", ship_city := "Austin",
    ship_state := "TX", ship_zip := "78701", ship_country := "US",
    item_title := "Wireless Mouse", order_date := "2024-01-10",
    raw := [("Order earnings", .num 25)] }

/-- A matching domestic Amazon order with the given id, account and date. -/
def domesticAmazonOrder (oid acct date : String) : AmazonOrder :=
  { orderId := some oid, amazon_account := some acct, shippingAddress := none,
    ship_to := none, products := none, orderDate := some date, order_placed := none,
    full_address := "John Smith 123 Main St Austin, TX 78701",
    buyer_name := "", ship_city := "", ship_state := "", ship_zip := "",
    ship_country := "", item_title := "Wireless Mouse", order_date := date,
    raw := [("orderTotal", .str "$15.00 USD")] }


/-- The four return keywords named by the specification (§4.8); the source
checks these and additionally the substring `"refund"`. -/
def claimReturnKeywords : List String :=
  ["returned", "refunded", "cancelled", "return complete"]

/-! ## Helper lemmas: rounding and score bounds -/

theorem bankersRound_nonneg (q : ℚ) (h : 0 ≤ q) : 0 ≤ bankersRound q := by
  have hf : 0 ≤ ⌊q⌋ := Int.floor_nonneg.mpr h
  simp only [bankersRound]
  split_ifs <;> omega

theorem bankersRound_le (q : ℚ) (B : ℤ) (h : q ≤ B) : bankersRound q ≤ B := by
  have hf : ⌊q⌋ ≤ B := by
    have := Int.floor_le_floor h
    simpa using this
  simp only [bankersRound]
  split_ifs with h1 h2 h3
  · exact hf
  · -- q - ⌊q⌋ > 1/2, so ⌊q⌋ < q ≤ B and ⌊q⌋ + 1 ≤ B
    have hq : (⌊q⌋ : ℚ) < q := by linarith
    have : (⌊q⌋ : ℚ) < (B : ℚ) := lt_of_lt_of_le hq h
    have : ⌊q⌋ < B := by exact_mod_cast this
    omega
  · exact hf
  · -- q - ⌊q⌋ = 1/2 exactly
    have hq : (⌊q⌋ : ℚ) < q := by linarith
    have : (⌊q⌋ : ℚ) < (B : ℚ) := lt_of_lt_of_le hq h
    have : ⌊q⌋ < B := by exact_mod_cast this
    omega

theorem pyRound1_nonneg (q : ℚ) (h : 0 ≤ q) : 0 ≤ pyRound1 q := by
  have := bankersRound_nonneg (q * 10) (by linarith)
  have : (0 : ℚ) ≤ (bankersRound (q * 10) : ℚ) := by exact_mod_cast this
  simp only [pyRound1]
  positivity

theorem pyRound1_le_100 (q : ℚ) (h : q ≤ 100) : pyRound1 q ≤ 100 := by
  have h1 : q * 10 ≤ ((1000 : ℤ) : ℚ) := by push_cast; linarith
  have h2 := bankersRound_le (q * 10) 1000 h1
  have h3 : (bankersRound (q * 10) : ℚ) ≤ 1000 := by exact_mod_cast h2
  simp only [pyRound1]
  linarith

theorem pyRound2_zero : pyRound2 0 = 0 := by
  simp [pyRound2, bankersRound]

theorem lcsAux_le_succ (f : List Char → ℕ) (k : ℕ) (hf : ∀ l, f l ≤ k) (a : Char) :
    ∀ l, lcsAux f a l ≤ k + 1 := by
  intro l
  induction l with
  | nil => simp [lcsAux]
  | cons b bs ih =>
    simp only [lcsAux]
    split_ifs
    · have := hf bs; omega
    · have := hf (b :: bs); omega

theorem lcs_le_left : ∀ l1 l2 : List Char, lcs l1 l2 ≤ l1.length := by
  intro l1
  induction l1 with
  | nil => intro l2; simp [lcs]
  | cons a as ih =>
    intro l2
    simpa [lcs] using lcsAux_le_succ (lcs as) as.length ih a l2

theorem lcsAux_le_len (f : List Char → ℕ) (hf : ∀ l, f l ≤ l.length) (a : Char) :
    ∀ l, lcsAux f a l ≤ l.length := by
  intro l
  induction l with
  | nil => simp [lcsAux]
  | cons b bs ih =>
    simp only [lcsAux, List.length_cons]
    split_ifs
    · have := hf bs; omega
    · have := hf (b :: bs); simp at this; omega

theorem lcs_le_right : ∀ l1 l2 : List Char, lcs l1 l2 ≤ l2.length := by
  intro l1
  induction l1 with
  | nil => intro l2; simp [lcs]
  | cons a as ih =>
    intro l2
    simpa [lcs] using lcsAux_le_len (lcs as) (fun l => ih l) a l2

theorem fuzzRatioChars_le_100 (l1 l2 : List Char) : fuzzRatioChars l1 l2 ≤ 100 := by
  simp only [fuzzRatioChars]
  split_ifs with h
  · exact le_refl 100
  · have hT : 0 < l1.length + l2.length := Nat.pos_of_ne_zero h
    have hlcs : 2 * lcs l1 l2 ≤ l1.length + l2.length := by
      have := lcs_le_left l1 l2
      have := lcs_le_right l1 l2
      omega
    have harg : (200 : ℚ) * (lcs l1 l2 : ℚ) / ((l1.length : ℚ) + (l2.length : ℚ)) ≤
        ((100 : ℤ) : ℚ) := by
      rw [div_le_iff₀ (by exact_mod_cast hT)]
      push_cast
      have : (2 * lcs l1 l2 : ℚ) ≤ (l1.length : ℚ) + l2.length := by exact_mod_cast hlcs
      linarith
    have := bankersRound_le _ 100 harg
    omega

theorem fuzzRatioScore_le_100 (s1 s2 : String) : fuzzRatioScore s1 s2 ≤ 100 :=
  fuzzRatioChars_le_100 _ _

theorem foldl_max_le_nat (B : ℕ) : ∀ (l : List ℕ) (b : ℕ), b ≤ B → (∀ x ∈ l, x ≤ B) →
    l.foldl max b ≤ B := by
  intro l
  induction l with
  | nil => intro b hb _; simpa using hb
  | cons x xs ih =>
    intro b hb hl
    simp only [List.foldl_cons]
    exact ih (max b x) (by
      have := hl x (by simp)
      omega) (fun y hy => hl y (by simp [hy]))

theorem fuzzPartialScore_le_100 (s1 s2 : String) : fuzzPartialScore s1 s2 ≤ 100 := by
  simp only [fuzzPartialScore]
  split_ifs
  all_goals
    first
    | exact le_refl 100
    | (apply foldl_max_le_nat 100 _ 0 (by omega)
       intro x hx
       rcases List.mem_map.mp hx with ⟨i, _, rfl⟩
       exact fuzzRatioChars_le_100 _ _)

theorem fuzzTokenSetScore_le_100 (s1 s2 : String) : fuzzTokenSetScore s1 s2 ≤ 100 := by
  simp only [fuzzTokenSetScore]
  split_ifs with h
  · omega
  · exact max_le (fuzzRatioScore_le_100 _ _)
      (max_le (fuzzRatioScore_le_100 _ _) (fuzzRatioScore_le_100 _ _))

theorem foldl_step_le_100 {α : Type} (step : ℕ → α → ℕ)
    (hstep : ∀ b w, b ≤ 100 → step b w ≤ 100) :
    ∀ (l : List α) (b : ℕ), b ≤ 100 → l.foldl step b ≤ 100 := by
  intro l
  induction l with
  | nil => intro b hb; simpa using hb
  | cons x xs ih => intro b hb; exact ih (step b x) (hstep b x hb)

theorem find_best_match_in_address_le_100 (s a : String) :
    find_best_match_in_address s a ≤ 100 := by
  simp only [find_best_match_in_address]
  split_ifs with h1 h2
  · omega
  · omega
  · apply foldl_step_le_100 _ _ _ 0 (by omega)
    intro b w hb
    dsimp only
    split_ifs
    · exact max_le (max_le hb (fuzzRatioChars_le_100 _ _)) (fuzzPartialScore_le_100 _ _)
    · exact max_le hb (fuzzRatioChars_le_100 _ _)
    · exact hb

theorem enhanced_fuzzy_name_match_le_100 (n w : String) :
    enhanced_fuzzy_name_match n w ≤ 100 := by
  simp only [enhanced_fuzzy_name_match]
  split_ifs
  · omega
  · omega
  · exact max_le (fuzzRatioChars_le_100 _ _) (fuzzPartialScore_le_100 _ _)

theorem find_best_match_in_address_enhanced_le_100 (s a : String) :
    find_best_match_in_address_enhanced s a ≤ 100 := by
  simp only [find_best_match_in_address_enhanced]
  split_ifs
  · omega
  · omega
  · apply foldl_step_le_100 _ _ _ 0 (by omega)
    intro b w hb
    dsimp only
    split_ifs
    · exact max_le hb (enhanced_fuzzy_name_match_le_100 _ _)
    · exact hb

theorem match_state_le_100 (s a : String) : match_state s a ≤ 100 := by
  simp only [match_state]
  split_ifs <;> omega

theorem match_zip_code_le_100 (z a : String) : match_zip_code z a ≤ 100 := by
  simp only [match_zip_code]
  split_ifs with h
  · omega
  · cases hz : fiveDigitRuns z with
    | nil => simp
    | cons x xs => simp only []; split_ifs <;> omega

theorem keyword_ratio_le_100 (ek ak : List String) (hek : ek ≠ []) :
    ((ek.filter (fun w => ak.contains w)).length : ℚ) /
      ((ek ++ ak.filter (fun w => !ek.contains w)).length : ℚ) * 100 ≤ 100 := by
  have hlen : (ek.filter (fun w => ak.contains w)).length ≤
      (ek ++ ak.filter (fun w => !ek.contains w)).length := by
    rw [List.length_append]
    have := List.length_filter_le (fun w => ak.contains w) ek
    omega
  have hpos : 0 < (ek ++ ak.filter (fun w => !ek.contains w)).length := by
    rw [List.length_append]
    rcases ek with _ | ⟨x, xs⟩
    · exact absurd rfl hek
    · simp
  have hq : ((ek.filter (fun w => ak.contains w)).length : ℚ) /
      ((ek ++ ak.filter (fun w => !ek.contains w)).length : ℚ) ≤ 1 := by
    rw [div_le_one (by exact_mod_cast hpos)]
    exact_mod_cast hlen
  have hq0 : (0 : ℚ) ≤ ((ek.filter (fun w => ak.contains w)).length : ℚ) /
      ((ek ++ ak.filter (fun w => !ek.contains w)).length : ℚ) := by positivity
  nlinarith

theorem floor_max4_toNat_le (a b c : ℕ) (k : ℚ) (ha : a ≤ 100) (hb : b ≤ 100)
    (hc : c ≤ 100) (hk : k ≤ 100) :
    (⌊max (max (a : ℚ) (b : ℚ)) (max (c : ℚ) k)⌋).toNat ≤ 100 := by
  have hmax : max (max (a : ℚ) (b : ℚ)) (max (c : ℚ) k) ≤ 100 := by
    apply max_le (max_le _ _) (max_le _ _)
    · exact_mod_cast ha
    · exact_mod_cast hb
    · exact_mod_cast hc
    · exact hk
  have : ⌊max (max (a : ℚ) (b : ℚ)) (max (c : ℚ) k)⌋ ≤ (100 : ℤ) := by
    have := Int.floor_le_floor hmax
    simpa using this
  omega

theorem calculate_title_similarity_le_100 (t1 t2 : String) :
    calculate_title_similarity t1 t2 ≤ 100 := by
  simp only [calculate_title_similarity]
  split_ifs with h hkw
  · omega
  · exact floor_max4_toNat_le _ _ _ _ (fuzzRatioScore_le_100 _ _)
      (fuzzPartialScore_le_100 _ _) (fuzzTokenSetScore_le_100 _ _)
      (keyword_ratio_le_100 _ _ (by
        intro hnil
        exact hkw.1 (by simp [hnil])))
  · exact floor_max4_toNat_le _ _ _ _ (fuzzRatioScore_le_100 _ _)
      (fuzzPartialScore_le_100 _ _) (fuzzTokenSetScore_le_100 _ _) (by norm_num)

theorem intl_total_score_bounds (cfg : IMConfig) (e : EbayOrder) (a : AmazonOrder) :
    0 ≤ (match_international_order cfg e a).total_score ∧
      (match_international_order cfg e a).total_score ≤ 100 := by
  simp only [match_international_order]
  cases hd : detect_eis_pattern (extract_amazon_address a) with
  | none => split_ifs <;> simp [create_no_match_result]
  | some nm =>
    simp only []
    split_ifs <;> simp [create_no_match_result] <;> constructor <;>
      first
        | positivity
        | (left; norm_num)
        | norm_num

theorem weighted_total_bounds (n c s z t : ℕ) (hn : n ≤ 100) (hc : c ≤ 100)
    (hs : s ≤ 100) (hz : z ≤ 100) (ht : t ≤ 100) :
    0 ≤ pyRound1 ((n : ℚ) * (30 / 100) + (c : ℚ) * (12 / 100) + (s : ℚ) * (8 / 100) +
        (z : ℚ) * (25 / 100) + (t : ℚ) * (25 / 100)) ∧
      pyRound1 ((n : ℚ) * (30 / 100) + (c : ℚ) * (12 / 100) + (s : ℚ) * (8 / 100) +
        (z : ℚ) * (25 / 100) + (t : ℚ) * (25 / 100)) ≤ 100 := by
  have hnq : (n : ℚ) ≤ 100 := by exact_mod_cast hn
  have hcq : (c : ℚ) ≤ 100 := by exact_mod_cast hc
  have hsq : (s : ℚ) ≤ 100 := by exact_mod_cast hs
  have hzq : (z : ℚ) ≤ 100 := by exact_mod_cast hz
  have htq : (t : ℚ) ≤ 100 := by exact_mod_cast ht
  have hn0 : (0 : ℚ) ≤ (n : ℚ) := Nat.cast_nonneg n
  have hc0 : (0 : ℚ) ≤ (c : ℚ) := Nat.cast_nonneg c
  have hs0 : (0 : ℚ) ≤ (s : ℚ) := Nat.cast_nonneg s
  have hz0 : (0 : ℚ) ≤ (z : ℚ) := Nat.cast_nonneg z
  have ht0 : (0 : ℚ) ≤ (t : ℚ) := Nat.cast_nonneg t
  refine ⟨pyRound1_nonneg _ (by positivity), pyRound1_le_100 _ (by linarith)⟩

theorem domestic_total_score_bounds (θ : ℚ) (e : EbayOrder) (a : AmazonOrder) :
    0 ≤ (calculate_match_score_enhanced defaultWeights θ e a).total_score ∧
      (calculate_match_score_enhanced defaultWeights θ e a).total_score ≤ 100 := by
  simp only [calculate_match_score_enhanced, defaultWeights]
  split_ifs with h1 hp
  · norm_num
  · exact weighted_total_bounds _ _ _ _ _
      (find_best_match_in_address_enhanced_le_100 _ _)
      (find_best_match_in_address_le_100 _ _)
      (match_state_le_100 _ _)
      (match_zip_code_le_100 _ _)
      (calculate_title_similarity_le_100 _ _)
  · exact weighted_total_bounds _ _ _ _ _
      (find_best_match_in_address_le_100 _ _)
      (find_best_match_in_address_le_100 _ _)
      (match_state_le_100 _ _)
      (match_zip_code_le_100 _ _)
      (calculate_title_similarity_le_100 _ _)

/-- C9: for every scored storefront/supplier pair — domestic (weighted sum under
the default weights) or international (capped composite) — the composite
`total_score` lies between 0 and 100 inclusive. -/
theorem c9_score_bounds (cfg : IMConfig) (threshold : ℚ) (e : EbayOrder) (a : AmazonOrder) :
    0 ≤ (calculate_match_score_with_international cfg defaultWeights threshold e a).total_score ∧
      (calculate_match_score_with_international cfg defaultWeights threshold e a).total_score ≤ 100 := by
  simp only [calculate_match_score_with_international]
  split_ifs with h
  · exact intl_total_score_bounds cfg e a
  · exact domestic_total_score_bounds threshold e a

theorem intl_success_eq (cfg : IMConfig) (e : EbayOrder) (a : AmazonOrder) (nm : String)
    (hae : ¬(extract_amazon_address a = "" ∨ extract_ebay_buyer e = ""))
    (hd : detect_eis_pattern (extract_amazon_address a) = some nm) (hne : nm ≠ "")
    (hn : calculate_name_similarity (extract_ebay_buyer e) nm ≥ cfg.name_threshold)
    (hp : calculate_product_similarity e a ≥ cfg.product_threshold) :
    match_international_order cfg e a =
      { is_match := true, match_method := "eis_co_international",
        confidence := min 95 (((calculate_name_similarity (extract_ebay_buyer e) nm : ℚ) +
          (calculate_product_similarity e a : ℚ)) / 2),
        total_score := min 95 (((calculate_name_similarity (extract_ebay_buyer e) nm : ℚ) +
          (calculate_product_similarity e a : ℚ)) / 2),
        date_status := "date_validation_skipped", days_difference := 0, reason := none,
        name_similarity := some (calculate_name_similarity (extract_ebay_buyer e) nm),
        product_similarity := some (calculate_product_similarity e a),
        extracted_name := some nm,
        is_international := some (internationalCountries.contains (extract_ebay_country e)),
        ebay_country := some (extract_ebay_country e) } := by
  simp only [match_international_order, hd]
  rw [if_neg hae, if_neg hne, if_neg (not_not_intro hn), if_neg (not_not_intro hp),
    if_neg (show ¬¬((validate_dates e a).1 = true) from not_not_intro rfl)]
  simp [validate_dates]

/-- Characterization of international acceptance (shared helper). -/
theorem intl_acceptance_characterization (cfg : IMConfig) (e : EbayOrder) (a : AmazonOrder) :
    (match_international_order cfg e a).is_match = true ↔
      (extract_amazon_address a ≠ "" ∧ extract_ebay_buyer e ≠ "" ∧
       ∃ nm, detect_eis_pattern (extract_amazon_address a) = some nm ∧ nm ≠ "" ∧
         calculate_name_similarity (extract_ebay_buyer e) nm ≥ cfg.name_threshold ∧
         calculate_product_similarity e a ≥ cfg.product_threshold ∧
         (validate_dates e a).1 = true) := by
  constructor
  · intro h
    rw [match_international_order] at h
    by_cases hae : (extract_amazon_address a = "" ∨ extract_ebay_buyer e = "")
    · rw [if_pos hae] at h; simp [create_no_match_result] at h
    · rw [if_neg hae] at h
      cases hd : detect_eis_pattern (extract_amazon_address a) with
      | none => rw [hd] at h; simp [create_no_match_result] at h
      | some nm =>
        rw [hd] at h
        simp only [] at h
        by_cases hne : nm = ""
        · rw [if_pos hne] at h; simp [create_no_match_result] at h
        · rw [if_neg hne] at h
          by_cases hn : calculate_name_similarity (extract_ebay_buyer e) nm ≥ cfg.name_threshold
          · rw [if_neg (not_not_intro hn)] at h
            by_cases hp : calculate_product_similarity e a ≥ cfg.product_threshold
            · push_neg at hae
              exact ⟨hae.1, hae.2, nm, rfl, hne, hn, hp, rfl⟩
            · rw [if_pos hp] at h; simp [create_no_match_result] at h
          · rw [if_pos hn] at h; simp [create_no_match_result] at h
  · rintro ⟨ha, hb, nm, hd, hne, hn, hp, _⟩
    rw [intl_success_eq cfg e a nm (by push_neg; exact ⟨ha, hb⟩) hd hne hn hp]

/-- C5 (amended): an international match is accepted if and only if the address
and buyer extract non-empty, the eIS CO pattern yields a non-empty cleaned
name, the name similarity clears the configurable `name_threshold` (default
85), and the product similarity clears the configurable `product_threshold`
(default 50); the date condition of `validate_dates` also gates the acceptance
but always passes (`date_validation_skipped`), so "fulfillment date not
preceding sale date" is not enforced. -/
theorem c5_intl_acceptance_conditions (cfg : IMConfig) (e : EbayOrder) (a : AmazonOrder) :
    (match_international_order cfg e a).is_match = true ↔
      (extract_amazon_address a ≠ "" ∧ extract_ebay_buyer e ≠ "" ∧
       ∃ nm, detect_eis_pattern (extract_amazon_address a) = some nm ∧ nm ≠ "" ∧
         calculate_name_similarity (extract_ebay_buyer e) nm ≥ cfg.name_threshold ∧
         calculate_product_similarity e a ≥ cfg.product_threshold ∧
         (validate_dates e a).1 = true) :=
  intl_acceptance_characterization cfg e a

/-- C5 (counterexample): a pair whose supplier (Amazon) order date 2024-01-05
precedes the storefront (eBay) sale date 2024-01-10 — the repository's own
domestic date validator marks the pair `date_invalid` — is nevertheless
accepted by the international matcher, refuting the claim that acceptance
requires date validity in the sense of "fulfillment date not preceding sale
date". -/
theorem c5_date_not_enforced_counterexample :
    (match_international_order defaultIMConfig (intlEbayOrder "ab cd" "2024-01-10")
      (intlAmazonOrder "ab cd" "2024-01-05")).is_match = true ∧
    (check_date_logic "2024-01-10" "2024-01-05").1 = false ∧
    (check_date_logic "2024-01-10" "2024-01-05").2.2 = -5 := by
  refine ⟨?_, ?_, ?_⟩ <;> with_unfolding_all rfl

/-- C3 (amended): when the international matcher accepts a pair, the reported
score equals `min(95, (name_similarity + product_similarity) / 2)` — a plain
average, not the 0.7/0.3 weighting — and the result's `match_method` field
equals `"eis_co_international"`. -/
theorem c3_intl_score_formula (cfg : IMConfig) (e : EbayOrder) (a : AmazonOrder)
    (h : (match_international_order cfg e a).is_match = true) :
    ∃ nm, detect_eis_pattern (extract_amazon_address a) = some nm ∧
      (match_international_order cfg e a).total_score =
        min 95 (((calculate_name_similarity (extract_ebay_buyer e) nm : ℚ) +
          (calculate_product_similarity e a : ℚ)) / 2) ∧
      (match_international_order cfg e a).match_method = "eis_co_international" := by
  obtain ⟨ha, hb, nm, hd, hne, hn, hp, _⟩ := (intl_acceptance_characterization cfg e a).mp h
  refine ⟨nm, hd, ?_, ?_⟩ <;>
    rw [intl_success_eq cfg e a nm (by push_neg; exact ⟨ha, hb⟩) hd hne hn hp]

/-- C3 (witness): the amended formula applied to a concrete accepted pair. -/
theorem c3_intl_score_formula_witness :
    (match_international_order defaultIMConfig (intlEbayOrder "ab cd" "2024-01-10")
      (intlAmazonOrder "ab ef" "2024-01-05")).is_match = true ∧
    (∃ nm, detect_eis_pattern (extract_amazon_address
        (intlAmazonOrder "ab ef" "2024-01-05")) = some nm ∧
      (match_international_order defaultIMConfig (intlEbayOrder "ab cd" "2024-01-10")
        (intlAmazonOrder "ab ef" "2024-01-05")).total_score =
        min 95 (((calculate_name_similarity
          (extract_ebay_buyer (intlEbayOrder "ab cd" "2024-01-10")) nm : ℚ) +
          (calculate_product_similarity (intlEbayOrder "ab cd" "2024-01-10")
            (intlAmazonOrder "ab ef" "2024-01-05") : ℚ)) / 2) ∧
      (match_international_order defaultIMConfig (intlEbayOrder "ab cd" "2024-01-10")
        (intlAmazonOrder "ab ef" "2024-01-05")).match_method = "eis_co_international") :=
  ⟨by with_unfolding_all rfl,
   c3_intl_score_formula defaultIMConfig (intlEbayOrder "ab cd" "2024-01-10")
     (intlAmazonOrder "ab ef" "2024-01-05") (by with_unfolding_all rfl)⟩

/-- C3 (counterexample): an accepted pair with name similarity 100 and product
similarity 60.  The reported score is 80 = (100+60)/2, not
min(95, 0.7·100 + 0.3·60) = 88, and the method tag is
`"eis_co_international"`, not `"international"`. -/
theorem c3_score_formula_counterexample :
    (match_international_order defaultIMConfig (intlEbayOrder "ab cd" "2024-01-10")
      (intlAmazonOrder "ab ef" "2024-01-05")).is_match = true ∧
    (match_international_order defaultIMConfig (intlEbayOrder "ab cd" "2024-01-10")
      (intlAmazonOrder "ab ef" "2024-01-05")).name_similarity = some 100 ∧
    (match_international_order defaultIMConfig (intlEbayOrder "ab cd" "2024-01-10")
      (intlAmazonOrder "ab ef" "2024-01-05")).product_similarity = some 60 ∧
    (match_international_order defaultIMConfig (intlEbayOrder "ab cd" "2024-01-10")
      (intlAmazonOrder "ab ef" "2024-01-05")).total_score = 80 ∧
    min 95 ((7 * (100 : ℚ) + 3 * 60) / 10) = 88 ∧
    (match_international_order defaultIMConfig (intlEbayOrder "ab cd" "2024-01-10")
      (intlAmazonOrder "ab ef" "2024-01-05")).total_score ≠
      min 95 ((7 * (100 : ℚ) + 3 * 60) / 10) ∧
    (match_international_order defaultIMConfig (intlEbayOrder "ab cd" "2024-01-10")
      (intlAmazonOrder "ab ef" "2024-01-05")).match_method ≠ "international" := by
  refine ⟨?_, ?_, ?_, ?_, ?_, ?_, ?_⟩ <;>
    with_unfolding_all (first | rfl | decide)

theorem claim_keywords_subset (ds : String)
    (h : claimReturnKeywords.any (fun k => strContains ds k) = true) :
    returnKeywords.any (fun k => strContains ds k) = true := by
  simp only [claimReturnKeywords, List.any_cons, List.any_nil, Bool.or_eq_true,
    Bool.or_false] at h
  simp only [returnKeywords, List.any_cons, List.any_nil, Bool.or_eq_true, Bool.or_false]
  tauto

/-- C4: whenever the supplier order's delivery/status field contains one of
"returned", "refunded", "cancelled", "return complete" (case-insensitive
substring — `deliveryStatusOf` lowercases), and the eBay earnings extraction
raises no exception, the profit calculation forces the supplier cost to
exactly 0, tags the cost method `"return_detected_cost_zero"` (the
specification's `return_detected` tier), records no exchange rate and leaves
the rate-handler session state untouched — the currency chain is bypassed
entirely, regardless of the order-total value or currency. -/
theorem c4_return_forces_zero_cost (api : RateApi) (st : RateState) (e a : PyDict)
    (earn : ℚ) (hret : claimReturnKeywords.any
      (fun k => strContains (deliveryStatusOf a) k) = true)
    (hearn : extractEbayEarning earningFields e = .ok earn) :
    (calculate_single_order_profit api st e a).1.calculated_amazon_cost_usd = 0 ∧
    (calculate_single_order_profit api st e a).1.cost_calculation_method =
      "return_detected_cost_zero" ∧
    specMethodTag (calculate_single_order_profit api st e a).1.cost_calculation_method =
      "return_detected" ∧
    (calculate_single_order_profit api st e a).1.exchange_rate_used = none ∧
    (calculate_single_order_profit api st e a).2 = st := by
  have hisret : isReturnedOrder a = true := claim_keywords_subset _ hret
  have hcalc : calculate_single_order_profit api st e a =
      (finishProfit earn 0 "return_detected_cost_zero" none, st) := by
    rw [calculate_single_order_profit, calcProfitBody, hearn]
    simp [hisret]
  rw [hcalc]
  refine ⟨?_, rfl, by with_unfolding_all rfl, rfl, rfl⟩
  show pyRound2 0 = 0
  exact pyRound2_zero

/-- C4 (witness): the theorem applied to a concrete returned order with a TRY
order total and a live rate service. -/
theorem c4_return_forces_zero_cost_witness :
    claimReturnKeywords.any
      (fun k => strContains (deliveryStatusOf returnedAmazonRow) k) = true ∧
    extractEbayEarning earningFields scenarioEbayRow = .ok 25 ∧
    (calculate_single_order_profit fixedRateApi freshRateState scenarioEbayRow
      returnedAmazonRow).1.calculated_amazon_cost_usd = 0 ∧
    (calculate_single_order_profit fixedRateApi freshRateState scenarioEbayRow
      returnedAmazonRow).1.cost_calculation_method = "return_detected_cost_zero" := by
  have h1 : claimReturnKeywords.any
      (fun k => strContains (deliveryStatusOf returnedAmazonRow) k) = true := by
    with_unfolding_all rfl
  have h2 : extractEbayEarning earningFields scenarioEbayRow = .ok 25 := by
    with_unfolding_all rfl
  obtain ⟨hc, hm, _, _, _⟩ :=
    c4_return_forces_zero_cost fixedRateApi freshRateState scenarioEbayRow
      returnedAmazonRow 25 h1 h2
  exact ⟨h1, h2, hc, hm⟩

/-- C10: `calculate_single_order_profit` is total — the embedding returns a
result for every input pair of dictionaries — and whenever its body raises
internally (`calcProfitBody` errors), the caught result is the zeroed profit
block: all five numeric fields 0.0, a `cost_calculation_method` beginning with
"error:", and no exchange rate. -/
theorem c10_error_block (api : RateApi) (st : RateState) (e a : PyDict)
    (m : String) (st' : RateState)
    (h : calcProfitBody api st e a = .error (m, st')) :
    calculate_single_order_profit api st e a =
      ({ calculated_ebay_earning_usd := 0, calculated_amazon_cost_usd := 0,
         calculated_profit_usd := 0, calculated_margin_percent := 0,
         calculated_roi_percent := 0,
         cost_calculation_method := "error: " ++ m,
         exchange_rate_used := none }, st') ∧
    listStartsWith "error:".toList ("error: " ++ m).toList = true := by
  constructor
  · simp only [calculate_single_order_profit, h]
  · with_unfolding_all rfl

/-- C10 (witness): a list-valued earnings cell makes `pd.notna` raise inside
the body; the calculator returns the zeroed error block. -/
theorem c10_error_block_witness :
    calcProfitBody unreachableApi freshRateState listValuedEbayRow scenarioAmazonRow =
      .error ("The truth value of an array with more than one element is ambiguous",
        freshRateState) ∧
    calculate_single_order_profit unreachableApi freshRateState listValuedEbayRow
        scenarioAmazonRow =
      ({ calculated_ebay_earning_usd := 0, calculated_amazon_cost_usd := 0,
         calculated_profit_usd := 0, calculated_margin_percent := 0,
         calculated_roi_percent := 0,
         cost_calculation_method :=
           "error: " ++ "The truth value of an array with more than one element is ambiguous",
         exchange_rate_used := none }, freshRateState) := by
  have h : calcProfitBody unreachableApi freshRateState listValuedEbayRow scenarioAmazonRow =
      .error ("The truth value of an array with more than one element is ambiguous",
        freshRateState) := by
    with_unfolding_all rfl
  exact ⟨h, (c10_error_block unreachableApi freshRateState listValuedEbayRow
    scenarioAmazonRow _ _ h).1⟩

/-- C6 (counterexample): for the supplier order total "500 TRY" with the
historical-rate service returning 35.0, the cost is 14.29 as claimed, but the
emitted `exchange_rate_used` is 34.99 — the effective rate derived from the
already-rounded cost (500 / 14.29 rounded to cents) — not 35.0. -/
theorem c6_exchange_rate_counterexample :
    fixedRateApi.historical "2024-01-15" = some 35 ∧
    (calculate_single_order_profit fixedRateApi freshRateState scenarioEbayRow
      scenarioAmazonRow).1.calculated_amazon_cost_usd = 1429 / 100 ∧
    (calculate_single_order_profit fixedRateApi freshRateState scenarioEbayRow
      scenarioAmazonRow).1.exchange_rate_used = some (3499 / 100) ∧
    (some ((3499 : ℚ) / 100) : Option ℚ) ≠ some 35 := by
  refine ⟨?_, ?_, ?_, ?_⟩ <;> with_unfolding_all (first | rfl | decide)

/-- C6 (amended): supplier order total "500 TRY", service rate 35.0 for the
order's date → cost = round(500/35, 2) = 14.29; `exchange_rate_used` is the
derived effective rate round(500/14.29, 2) = 34.99; the method tag is
`"api_rate_34.99_try_per_usd"`, the specification's `historical_rate` tier. -/
theorem c6_historical_rate_scenario :
    fixedRateApi.historical "2024-01-15" = some 35 ∧
    pyRound2 ((500 : ℚ) / 35) = 1429 / 100 ∧
    pyRound2 ((500 : ℚ) / (1429 / 100)) = 3499 / 100 ∧
    (calculate_single_order_profit fixedRateApi freshRateState scenarioEbayRow
      scenarioAmazonRow).1.calculated_amazon_cost_usd = 1429 / 100 ∧
    (calculate_single_order_profit fixedRateApi freshRateState scenarioEbayRow
      scenarioAmazonRow).1.exchange_rate_used = some (3499 / 100) ∧
    (calculate_single_order_profit fixedRateApi freshRateState scenarioEbayRow
      scenarioAmazonRow).1.cost_calculation_method = "api_rate_34.99_try_per_usd" ∧
    specMethodTag "api_rate_34.99_try_per_usd" = "historical_rate" := by
  refine ⟨?_, ?_, ?_, ?_, ?_, ?_, ?_⟩ <;> with_unfolding_all rfl

/-- C7 (counterexample): with the daily request cap exhausted and an
already-computed settlement-currency cost field ("20.00") on the record, the
chain does not fall through to the existing-field tier: `get_exchange_rate`
itself substitutes the fixed rate 35.0 and reports success, so the rate-lookup
tier produces the converted cost 14.29 with an `api_rate` tag. -/
theorem c7_cap_counterexample :
    check_daily_limit cappedRateState = false ∧
    dictGet scenarioAmazonRowExisting "amazon_cost_usd" = some (.str "20.00") ∧
    parse_usd_amount (.str "20.00") = .ok 20 ∧
    (calculate_single_order_profit unreachableApi cappedRateState scenarioEbayRow
      scenarioAmazonRowExisting).1.cost_calculation_method = "api_rate_34.99_try_per_usd" ∧
    (calculate_single_order_profit unreachableApi cappedRateState scenarioEbayRow
      scenarioAmazonRowExisting).1.cost_calculation_method ≠ "existing_usd_field" ∧
    (calculate_single_order_profit unreachableApi cappedRateState scenarioEbayRow
      scenarioAmazonRowExisting).1.calculated_amazon_cost_usd = 1429 / 100 ∧
    ((1429 : ℚ) / 100) ≠ 20 := by
  refine ⟨?_, ?_, ?_, ?_, ?_, ?_, ?_⟩ <;> with_unfolding_all (first | rfl | decide)

/-- C7 (amended): when the daily cap is exhausted (and on a cache miss), the
USD→TRY rate lookup does not fail — it substitutes the fixed rate 35.0 and
succeeds, caching it — so for a TRY order total the rate-lookup tier still
produces the converted cost and the existing-cost-field tier is not consulted;
this holds for every service behavior `api`, which is never contacted. -/
theorem c7_cap_uses_fixed_rate (api : RateApi) :
    check_daily_limit cappedRateState = false ∧
    get_exchange_rate api cappedRateState "2024-01-15" "USD" "TRY" =
      ((true, some 35, "Fixed rate (daily API limit reached)"),
        cache_rate cappedRateState "2024-01-15" "USD" "TRY" 35) ∧
    (calculate_single_order_profit api cappedRateState scenarioEbayRow
      scenarioAmazonRowExisting).1.cost_calculation_method = "api_rate_34.99_try_per_usd" ∧
    (calculate_single_order_profit api cappedRateState scenarioEbayRow
      scenarioAmazonRowExisting).1.calculated_amazon_cost_usd = 1429 / 100 := by
  refine ⟨?_, ?_, ?_, ?_⟩ <;> with_unfolding_all rfl

/-- C1 (code behavior at the failing input): the entire matching body of
`match_orders` is nested inside `if progress_callback:`, so supplying no
progress callback yields an empty result for every input — matching does not
happen "whether or not a progress callback argument is supplied".  With a
callback supplied, the same one-order input produces one match. -/
theorem c1_matching_requires_callback :
    (∀ (cfg : IMConfig) (w : Weights) (threshold : ℚ) (api : RateApi)
      (ebays : List EbayOrder) (amazons : List AmazonOrder) (st0 : RateState),
      match_orders cfg w threshold api false ebays amazons st0 = []) ∧
    (match_orders defaultIMConfig defaultWeights 70 fixedRateApi true
      [domesticEbayOrder] [domesticAmazonOrder "A-1" "acme" "2024-01-11"]
      freshRateState).length = 1 := by
  constructor
  · intro cfg w θ api ebays amazons st0
    have hfold : ∀ (es : List EbayOrder) (st : LoopState),
        es.foldl (matchStep cfg w θ api false amazons) st = st := by
      intro es
      induction es with
      | nil => intro st; rfl
      | cons e es ih =>
        intro st
        rw [List.foldl_cons]
        exact ih st
    rw [match_orders, hfold]
  · with_unfolding_all rfl

theorem gather_mem_spec (cfg : IMConfig) (w : Weights) (threshold : ℚ) (e : EbayOrder)
    (amazons : List AmazonOrder) (used : List String) (c : Candidate)
    (hc : c ∈ gatherCandidates cfg w threshold e amazons used) :
    c.amazon_composite_key = compositeKeyOf c.amazon ∧
    used.contains c.amazon_composite_key = false ∧
    (calculate_match_score_with_international cfg w threshold e c.amazon).is_match = true ∧
    c.days_difference =
      (calculate_match_score_with_international cfg w threshold e c.amazon).days_difference := by
  simp only [gatherCandidates, List.mem_filterMap] at hc
  obtain ⟨a, _, hfa⟩ := hc
  by_cases hu : used.contains (compositeKeyOf a) = true
  · rw [if_pos hu] at hfa
    exact absurd hfa (by simp)
  · simp only [Bool.not_eq_true] at hu
    rw [if_neg (by rw [hu]; simp)] at hfa
    by_cases hr : (calculate_match_score_with_international cfg w threshold e a).is_match = true ∧
        (calculate_match_score_with_international cfg w threshold e a).total_score ≥ threshold
    · rw [if_pos hr] at hfa
      obtain rfl := Option.some.inj hfa
      exact ⟨rfl, hu, hr.1, rfl⟩
    · rw [if_neg hr] at hfa
      exact absurd hfa (by simp)

theorem pythonMaxBy_mem (key : Candidate → ℚ) :
    ∀ (xs : List Candidate) (x : Candidate), pythonMaxBy key x xs ∈ x :: xs := by
  intro xs
  induction xs with
  | nil => intro x; simp [pythonMaxBy]
  | cons y ys ih =>
    intro x
    have hPM : pythonMaxBy key x (y :: ys) =
        pythonMaxBy key (if key y > key x then y else x) ys := rfl
    rw [hPM]
    rcases List.mem_cons.mp (ih (if key y > key x then y else x)) with h | h
    · rw [h]
      split_ifs <;> simp
    · exact List.mem_cons_of_mem x (List.mem_cons_of_mem y h)

theorem selectBest_mem (cands : List Candidate) (c : Candidate)
    (h : selectBest cands = some c) : c ∈ cands := by
  rcases cands with _ | ⟨c0, _ | ⟨c1, rest⟩⟩
  · simp [selectBest] at h
  · simp only [selectBest] at h
    obtain rfl := Option.some.inj h
    simp
  · simp only [selectBest] at h
    rcases hf : (c0 :: c1 :: rest).filter
        (fun m => m.days_difference =
          ((c0 :: c1 :: rest).map (fun m => m.days_difference)).foldl min c0.days_difference)
      with _ | ⟨cf, cfs⟩ <;> rw [hf] at h
    · have h' : (none : Option Candidate) = some c := h
      exact absurd h' (by simp)
    · have hsub : ∀ x, x ∈ cf :: cfs → x ∈ c0 :: c1 :: rest := by
        intro x hx
        rw [← hf] at hx
        exact List.mem_of_mem_filter hx
      rcases cfs with _ | ⟨cg, cgs⟩
      · have h' : some cf = some c := h
        obtain rfl := Option.some.inj h'
        exact hsub cf (by simp)
      · have h' : some (pythonMaxBy (fun m => m.match_score) cf (cg :: cgs)) = some c := h
        obtain rfl := Option.some.inj h'
        exact hsub _ (pythonMaxBy_mem (fun m => m.match_score) (cg :: cgs) cf)

theorem matchStep_preserves_nodup (cfg : IMConfig) (w : Weights) (threshold : ℚ)
    (api : RateApi) (cb : Bool) (amazons : List AmazonOrder) (st : LoopState) (e : EbayOrder)
    (h1 : (st.records.map (fun r => compositeKeyOf r.amazon)).Nodup)
    (h2 : ∀ r ∈ st.records, st.used.contains (compositeKeyOf r.amazon) = true) :
    ((matchStep cfg w threshold api cb amazons st e).records.map
      (fun r => compositeKeyOf r.amazon)).Nodup ∧
    ∀ r ∈ (matchStep cfg w threshold api cb amazons st e).records,
      (matchStep cfg w threshold api cb amazons st e).used.contains
        (compositeKeyOf r.amazon) = true := by
  rw [matchStep]
  cases cb with
  | false => exact ⟨h1, h2⟩
  | true =>
    simp only [if_true]
    cases hsel : selectBest (gatherCandidates cfg w threshold e amazons st.used) with
    | none => exact ⟨h1, h2⟩
    | some best =>
      have hmem := selectBest_mem _ _ hsel
      obtain ⟨hkey, hnotused, _, _⟩ :=
        gather_mem_spec cfg w threshold e amazons st.used best hmem
      simp only [create_match_record_with_international]
      constructor
      · rw [List.map_append, List.nodup_append]
        refine ⟨h1, by simp, ?_⟩
        intro k hk hk2
        simp only [List.map_cons, List.map_nil, List.mem_singleton] at hk2
        rcases List.mem_map.mp hk with ⟨r, hr, rfl⟩
        have := h2 r hr
        rw [hk2, ← hkey] at this
        rw [this] at hnotused
        exact Bool.true_eq_false.mp hnotused
      · intro r hr
        rcases List.mem_append.mp hr with hr | hr
        · have := h2 r hr
          simp only [List.contains_cons]
          rw [this]
          simp
        · simp only [List.mem_singleton] at hr
          subst hr
          simp only [List.contains_cons]
          rw [← hkey]
          simp

theorem foldl_matchStep_nodup (cfg : IMConfig) (w : Weights) (threshold : ℚ)
    (api : RateApi) (cb : Bool) (amazons : List AmazonOrder) :
    ∀ (es : List EbayOrder) (st : LoopState),
      (st.records.map (fun r => compositeKeyOf r.amazon)).Nodup →
      (∀ r ∈ st.records, st.used.contains (compositeKeyOf r.amazon) = true) →
      ((es.foldl (matchStep cfg w threshold api cb amazons) st).records.map
        (fun r => compositeKeyOf r.amazon)).Nodup := by
  intro es
  induction es with
  | nil => intro st hn _; simpa using hn
  | cons e es ih =>
    intro st hn hu
    rw [List.foldl_cons]
    obtain ⟨hn', hu'⟩ :=
      matchStep_preserves_nodup cfg w threshold api cb amazons st e hn hu
    exact ih _ hn' hu'

/-- C2: across one run of the matching loop, no two emitted records reference
the same (supplier-order-id, supplier-account) pair: the composite keys of the
emitted records are pairwise distinct (the winner's key is added to the used
set before the record is emitted and every later candidate scan skips it), for
any inputs and any number of supplier accounts loaded together. -/
theorem c2_at_most_once_consumption (cfg : IMConfig) (w : Weights) (threshold : ℚ)
    (api : RateApi) (cb : Bool) (ebays : List EbayOrder) (amazons : List AmazonOrder)
    (st0 : RateState) :
    ((match_orders cfg w threshold api cb ebays amazons st0).map
      (fun r => compositeKeyOf r.amazon)).Nodup ∧
    ((match_orders cfg w threshold api cb ebays amazons st0).map
      (fun r => (r.amazon.orderId.getD "", r.amazon.amazon_account.getD ""))).Nodup := by
  have hkeys : ((match_orders cfg w threshold api cb ebays amazons st0).map
      (fun r => compositeKeyOf r.amazon)).Nodup := by
    rw [match_orders]
    exact foldl_matchStep_nodup cfg w threshold api cb amazons ebays
      { records := [], used := [], counter := 1, rate := st0 } (by simp) (by simp)
  refine ⟨hkeys, ?_⟩
  have heq : (match_orders cfg w threshold api cb ebays amazons st0).map
      (fun r => compositeKeyOf r.amazon) =
      ((match_orders cfg w threshold api cb ebays amazons st0).map
        (fun r => (r.amazon.orderId.getD "", r.amazon.amazon_account.getD ""))).map
        (fun p => p.1 ++ "_" ++ p.2) := by
    rw [List.map_map]
    rfl
  rw [heq] at hkeys
  exact hkeys.of_map

theorem check_date_logic_valid_nonneg (d1 d2 : String)
    (h : (check_date_logic d1 d2).1 = true) : 0 ≤ (check_date_logic d1 d2).2.2 := by
  rw [check_date_logic] at h ⊢
  cases hp1 : parse_date d1 with
  | none => simp
  | some e =>
    cases hp2 : parse_date d2 with
    | none => simp
    | some a =>
      rw [hp1, hp2] at h
      by_cases hlt : a < e
      · simp [hlt] at h
      · simp [hlt]
        omega

theorem intl_is_match_days_zero (cfg : IMConfig) (e : EbayOrder) (a : AmazonOrder)
    (h : (match_international_order cfg e a).is_match = true) :
    (match_international_order cfg e a).days_difference = 0 := by
  obtain ⟨ha, hb, nm, hd, hne, hn, hp, _⟩ := (intl_acceptance_characterization cfg e a).mp h
  rw [intl_success_eq cfg e a nm (by push_neg; exact ⟨ha, hb⟩) hd hne hn hp]

theorem with_intl_days_nonneg (cfg : IMConfig) (w : Weights) (threshold : ℚ)
    (e : EbayOrder) (a : AmazonOrder)
    (h : (calculate_match_score_with_international cfg w threshold e a).is_match = true) :
    0 ≤ (calculate_match_score_with_international cfg w threshold e a).days_difference := by
  rw [calculate_match_score_with_international] at h ⊢
  by_cases hm : (match_international_order cfg e a).is_match = true
  · rw [if_pos hm]
    simp [intl_is_match_days_zero cfg e a hm]
  · rw [if_neg hm] at h ⊢
    rw [calculate_match_score_enhanced] at h ⊢
    split_ifs at h ⊢ with hA
    all_goals
      (first
        | ((try simp only [Bool.and_eq_true, decide_eq_true_eq] at h)
           exact check_date_logic_valid_nonneg e.order_date a.order_date h.2)
        | simp at h)

theorem le_foldl_max_q : ∀ (l : List ℚ) (b : ℚ), b ≤ l.foldl max b := by
  intro l
  induction l with
  | nil => intro b; simp
  | cons x xs ih =>
    intro b
    rw [List.foldl_cons]
    exact le_trans (le_max_left b x) (ih (max b x))

theorem firstMax_spec (key : Candidate → ℚ) : ∀ (xs : List Candidate) (x : Candidate),
    (x :: xs).find? (fun c => key c = (xs.map key).foldl max (key x)) =
      some (pythonMaxBy key x xs) := by
  intro xs
  induction xs with
  | nil =>
    intro x
    simp [pythonMaxBy]
  | cons y ys ih =>
    intro x
    have hstep : pythonMaxBy key x (y :: ys) =
        pythonMaxBy key (if key y > key x then y else x) ys := rfl
    have hM : ((y :: ys).map key).foldl max (key x) =
        (ys.map key).foldl max (key (if key y > key x then y else x)) := by
      rw [List.map_cons, List.foldl_cons]
      congr 1
      split_ifs with hgt
      · exact max_eq_right (le_of_lt hgt)
      · exact max_eq_left (le_of_not_lt hgt)
    rw [hstep, hM]
    by_cases hgt : key y > key x
    · rw [if_pos hgt]
      have hxM : ¬ (key x = (ys.map key).foldl max (key y)) := by
        have h1 : key y ≤ (ys.map key).foldl max (key y) := le_foldl_max_q _ _
        exact ne_of_lt (lt_of_lt_of_le hgt h1)
      rw [List.find?_cons_of_neg _ (by simpa using hxM)]
      exact ih y
    · rw [if_neg hgt]
      by_cases hxM : key x = (ys.map key).foldl max (key x)
      · rw [List.find?_cons_of_pos _ (by simpa using hxM)]
        have hz := ih x
        rw [List.find?_cons_of_pos _ (by simpa using hxM)] at hz
        exact hz
      · rw [List.find?_cons_of_neg _ (by simpa using hxM)]
        have hyM : ¬ (key y = (ys.map key).foldl max (key x)) := by
          intro hEq
          have h1 : key x ≤ (ys.map key).foldl max (key x) := le_foldl_max_q _ _
          have h2 : key y ≤ key x := le_of_not_lt hgt
          exact hxM (le_antisymm h1 (hEq ▸ h2))
        rw [List.find?_cons_of_neg _ (by simpa using hyM)]
        have hz := ih x
        rw [List.find?_cons_of_neg _ (by simpa using hxM)] at hz
        exact hz

theorem natAbs_min_nonneg (b x : ℤ) (hb : 0 ≤ b) (hx : 0 ≤ x) :
    (min b x).natAbs = min b.natAbs x.natAbs := by
  rcases le_total b x with h | h
  · rw [min_eq_left h, min_eq_left (by omega)]
  · rw [min_eq_right h, min_eq_right (by omega)]

theorem foldl_min_nonneg_natAbs : ∀ (l : List ℤ) (b : ℤ), 0 ≤ b → (∀ x ∈ l, 0 ≤ x) →
    0 ≤ l.foldl min b ∧
    (l.foldl min b).natAbs = (l.map Int.natAbs).foldl min b.natAbs := by
  intro l
  induction l with
  | nil => intro b hb _; exact ⟨hb, rfl⟩
  | cons x xs ih =>
    intro b hb hl
    have hx := hl x (by simp)
    rw [List.foldl_cons, List.map_cons, List.foldl_cons]
    obtain ⟨h2, h3⟩ := ih (min b x) (le_min hb hx) (fun y hy => hl y (by simp [hy]))
    refine ⟨h2, ?_⟩
    rw [h3, natAbs_min_nonneg b x hb hx]

theorem selectBest_eq_specSelect (cands : List Candidate)
    (h : ∀ c ∈ cands, 0 ≤ c.days_difference) : selectBest cands = specSelect cands := by
  rcases cands with _ | ⟨c0, _ | ⟨c1, rest⟩⟩
  · rfl
  · simp [selectBest, specSelect, List.find?]
  · have h0 : 0 ≤ c0.days_difference := h c0 (by simp)
    have htail : ∀ x ∈ (c1 :: rest).map (fun m => m.days_difference), 0 ≤ x := by
      intro x hx
      rcases List.mem_map.mp hx with ⟨m, hm, rfl⟩
      exact h m (by simp [hm])
    obtain ⟨hmn, hmabs⟩ := foldl_min_nonneg_natAbs
      ((c1 :: rest).map (fun m => m.days_difference)) c0.days_difference h0 htail
    have hfull : ((c0 :: c1 :: rest).map (fun m => m.days_difference)).foldl min
        c0.days_difference =
        ((c1 :: rest).map (fun m => m.days_difference)).foldl min c0.days_difference := by
      rw [List.map_cons, List.foldl_cons, min_self]
    have hmapmap : ((c1 :: rest).map (fun m => m.days_difference)).map Int.natAbs =
        (c1 :: rest).map (fun m => m.days_difference.natAbs) := by
      rw [List.map_map]
      rfl
    have hfilt : (c0 :: c1 :: rest).filter
        (fun m => m.days_difference =
          ((c0 :: c1 :: rest).map (fun m => m.days_difference)).foldl min c0.days_difference) =
        (c0 :: c1 :: rest).filter
        (fun m => m.days_difference.natAbs =
          ((c1 :: rest).map (fun m => m.days_difference.natAbs)).foldl min
            c0.days_difference.natAbs) := by
      apply List.filter_congr
      intro m hm
      have hmnn := h m hm
      rw [decide_eq_decide]
      rw [← hmapmap, ← hmabs, hfull]
      constructor
      · intro he
        rw [he]
      · intro he
        omega
    rw [selectBest, specSelect]
    rw [hfilt]
    cases hF : (c0 :: c1 :: rest).filter
        (fun m => m.days_difference.natAbs =
          ((c1 :: rest).map (fun m => m.days_difference.natAbs)).foldl min
            c0.days_difference.natAbs) with
    | nil => rfl
    | cons cf cfs =>
      cases cfs with
      | nil => simp [List.find?]
      | cons cg cgs => exact (firstMax_spec (fun m => m.match_score) (cg :: cgs) cf).symm
    simp

/-- C8: the best-match selection of the matching loop is exactly the
specification's deterministic rule — over the gathered candidates of any
storefront order, keep those with the smallest absolute day difference
(candidate day differences are never negative, so the raw minimum the code
takes is the absolute minimum), and among them the first candidate with the
highest score wins, in input order. -/
theorem c8_selection_rule (cfg : IMConfig) (w : Weights) (threshold : ℚ) (e : EbayOrder)
    (amazons : List AmazonOrder) (used : List String) :
    selectBest (gatherCandidates cfg w threshold e amazons used) =
      specSelect (gatherCandidates cfg w threshold e amazons used) := by
  apply selectBest_eq_specSelect
  intro c hc
  obtain ⟨_, _, him, hdays⟩ := gather_mem_spec cfg w threshold e amazons used c hc
  rw [hdays]
  exact with_intl_days_nonneg cfg w threshold e c.amazon him
